import Mathlib

/-!
Vidalia: the GeoIP response parser (`src/util/geoip/geoipresponse.cpp`).

A shallow embedding of `GeoIpResponse::GeoIpResponse(QByteArray)` together with the
pieces of the Qt value classes it relies on (`QByteArray::indexOf`, `QByteArray::mid`,
`QString(QByteArray)`, `QString::split`, `QString::arg`, the accessors of
`QHttpResponseHeader`).

The header parser (`QHttpResponseHeader(QString)`), the decompressor
(`ZlibByteArray::uncompress`) and the record constructor (`GeoIp::fromString`,
`GeoIp::isEmpty`) are not part of the sources at hand; the constructor is embedded
over an arbitrary choice of them (`Collaborators`), and every general theorem holds
for all such choices.
-/

set_option autoImplicit false
set_option linter.dupNamespace false

namespace Vidalia

/-! ## Qt value classes -/

/-- A `QByteArray`: a finite sequence of bytes. -/
abbrev QByteArray := List UInt8

/-- A `QString`: a finite sequence of characters. -/
abbrev QString := List Char

/-- The text of a C string literal, as a `QString`. -/
abbrev qs (s : String) : QString := s.data

/-- The bytes of a C string literal (characters below 256), as a `QByteArray`. -/
def bytes (s : String) : QByteArray := s.data.map (fun c => UInt8.ofNat c.toNat)

/-- `QString(const QByteArray &)`: conversion with `fromAscii` (Latin-1 unless a codec
is installed), which stops copying at the first 0 byte. -/
def fromAscii (ba : QByteArray) : QString :=
  (ba.takeWhile (fun b => b != 0)).map (fun b => Char.ofNat b.toNat)

/-- Search of `QByteArray::indexOf`, carrying the index of the current position: the
index of the first position at or after the current one where `needle` starts, or -1. -/
def indexOfFrom (needle : QByteArray) : QByteArray → Nat → Int
  | [], i => if needle.isPrefixOf [] then (i : Int) else -1
  | b :: bs, i =>
    if needle.isPrefixOf (b :: bs) then (i : Int) else indexOfFrom needle bs (i + 1)

/-- `QByteArray::indexOf(const char *str)`: the index of the first occurrence of `str`,
or -1 when there is none. -/
def indexOf (ba needle : QByteArray) : Int := indexOfFrom needle ba 0

/-- `QByteArray::mid(int pos, int len)`; `len = -1` is the default argument and means
"up to the end". -/
def mid (ba : QByteArray) (pos len : Int) : QByteArray :=
  if ba.isEmpty ∨ pos ≥ (ba.length : Int) then []
  else
    let len1 : Int := if len < 0 then (ba.length : Int) - pos else len
    let len2 : Int := if pos < 0 then len1 + pos else len1
    let pos2 : Int := if pos < 0 then 0 else pos
    let len3 : Int := if len2 + pos2 > (ba.length : Int) then (ba.length : Int) - pos2 else len2
    (ba.drop pos2.toNat).take len3.toNat

/-- `QString::split(sep)` for a one-character separator, empty parts kept. -/
def split (sep : Char) : QString → List QString
  | [] => [[]]
  | c :: cs =>
    if c = sep then [] :: split sep cs
    else
      match split sep cs with
      | [] => [[c]]
      | l :: ls => (c :: l) :: ls

/-- A piece of a format string as `QString::arg` sees it: an ordinary character, or a
place marker `%N` / `%LN` (one or two digits) with its number and its own text. -/
inductive ArgPiece where
  | lit (c : Char)
  | escape (n : Nat) (text : QString)
deriving DecidableEq, Repr

/-- The value of a decimal digit. -/
def digitValue (c : Char) : Nat := c.toNat - 48

/-- Where the scan of `findArgEscapes` stands: in ordinary text, after a `%`, after
`%L`, or after the first digit of a marker (`locale` tells whether an `L` came first). -/
inductive ScanState where
  | text
  | percent
  | percentL
  | digit (locale : Bool) (d : Char)
deriving DecidableEq, Repr

/-- The scan of `findArgEscapes`: cut a format string into characters and place markers.
A `%` (or `%L`) that no digit follows is ordinary text, and the character after it is
looked at again. -/
def scanEscapes : ScanState → QString → List ArgPiece
  | ScanState.text, [] => []
  | ScanState.percent, [] => [ArgPiece.lit '%']
  | ScanState.percentL, [] => [ArgPiece.lit '%', ArgPiece.lit 'L']
  | ScanState.digit locale d, [] =>
    [ArgPiece.escape (digitValue d) (if locale then ['%', 'L', d] else ['%', d])]
  | ScanState.text, c :: cs =>
    if c = '%' then scanEscapes ScanState.percent cs
    else ArgPiece.lit c :: scanEscapes ScanState.text cs
  | ScanState.percent, c :: cs =>
    if c.isDigit then scanEscapes (ScanState.digit false c) cs
    else if c = 'L' then scanEscapes ScanState.percentL cs
    else if c = '%' then ArgPiece.lit '%' :: scanEscapes ScanState.percent cs
    else ArgPiece.lit '%' :: ArgPiece.lit c :: scanEscapes ScanState.text cs
  | ScanState.percentL, c :: cs =>
    if c.isDigit then scanEscapes (ScanState.digit true c) cs
    else if c = '%' then
      ArgPiece.lit '%' :: ArgPiece.lit 'L' :: scanEscapes ScanState.percent cs
    else ArgPiece.lit '%' :: ArgPiece.lit 'L' :: ArgPiece.lit c :: scanEscapes ScanState.text cs
  | ScanState.digit locale d, c :: cs =>
    if c.isDigit then
      ArgPiece.escape (10 * digitValue d + digitValue c)
          (if locale then ['%', 'L', d, c] else ['%', d, c])
        :: scanEscapes ScanState.text cs
    else if c = '%' then
      ArgPiece.escape (digitValue d) (if locale then ['%', 'L', d] else ['%', d])
        :: scanEscapes ScanState.percent cs
    else
      ArgPiece.escape (digitValue d) (if locale then ['%', 'L', d] else ['%', d])
        :: ArgPiece.lit c :: scanEscapes ScanState.text cs

/-- The place markers of a format string, as `findArgEscapes` finds them. -/
def findArgEscapes (s : QString) : List ArgPiece := scanEscapes ScanState.text s

/-- The lowest place-marker number of a scanned format string, if it has a marker. -/
def minEscape : List ArgPiece → Option Nat
  | [] => none
  | ArgPiece.lit _ :: ps => minEscape ps
  | ArgPiece.escape n _ :: ps =>
    match minEscape ps with
    | none => some n
    | some m => some (min n m)

/-- The rewrite of `replaceArgEscapes`: every marker numbered `m` becomes `a`, all other
text is kept. -/
def replaceArgEscapes (m : Nat) (a : QString) : List ArgPiece → QString
  | [] => []
  | ArgPiece.lit c :: ps => c :: replaceArgEscapes m a ps
  | ArgPiece.escape n text :: ps =>
    (if n = m then a else text) ++ replaceArgEscapes m a ps

/-- `QString::arg(const QString &a)`: the lowest-numbered place marker is replaced by `a`;
a string without a marker is returned as it is. -/
def arg (s a : QString) : QString :=
  match minEscape (findArgEscapes s) with
  | none => s
  | some m => replaceArgEscapes m a (findArgEscapes s)

/-- ASCII lower-casing of a string, used for the case-insensitive header keys. -/
def toLower (s : QString) : QString := s.map Char.toLower

/-- The data of a `QHttpResponseHeader`: validity flag, status line and the header
fields in their order. -/
structure QHttpResponseHeader where
  valid : Bool
  statCode : Int
  reasonPhr : QString
  majVer : Int
  minVer : Int
  values : List (QString × QString)
deriving DecidableEq, Repr

namespace QHttpResponseHeader

/-- `QHttpResponseHeader::statusCode()`. -/
def statusCode (h : QHttpResponseHeader) : Int := h.statCode

/-- `QHttpResponseHeader::reasonPhrase()`. -/
def reasonPhrase (h : QHttpResponseHeader) : QString := h.reasonPhr

/-- `QHttpHeader::hasKey(key)`: keys compare case-insensitively. -/
def hasKey (h : QHttpResponseHeader) (key : QString) : Bool :=
  h.values.any (fun kv => toLower kv.1 == toLower key)

/-- `QHttpHeader::value(key)`: the value of the first field with that key, or the empty
string. -/
def value (h : QHttpResponseHeader) (key : QString) : QString :=
  match h.values.find? (fun kv => toLower kv.1 == toLower key) with
  | some kv => kv.2
  | none => []

/-- `QHttpResponseHeader::setStatusLine(code, text)` with the default version 1.1. -/
def setStatusLine (h : QHttpResponseHeader) (code : Int) (text : QString) :
    QHttpResponseHeader :=
  { h with valid := true, statCode := code, reasonPhr := text, majVer := 1, minVer := 1 }

end QHttpResponseHeader

/-! ## The constructor -/

/-- `ZlibByteArray::CompressionMethod`. -/
inductive CompressionMethod where
  | None
  | Gzip
  | Zlib
deriving DecidableEq, Repr

/-- Status code for a successful HTTP request. -/
def STATUS_HTTP_OK : Int := 200

/-- Status code for content encoding errors. -/
def STATUS_CONTENT_ENCODING_ERR : Int := 601

/-- The header/body separator searched by the constructor. -/
def CRLFCRLF : QByteArray := [13, 10, 13, 10]

/-- The functions the constructor calls whose code is outside the sources at hand:
`QHttpResponseHeader(QString)`, `ZlibByteArray::uncompress` (the result and the text left
in `*errmsg`), `GeoIp::fromString` and `GeoIp::isEmpty`. -/
structure Collaborators (GeoIp : Type) where
  parseHeader : QString → QHttpResponseHeader
  uncompress : QByteArray → CompressionMethod → QByteArray × QString
  fromString : QString → GeoIp
  isEmpty : GeoIp → Bool

/-- The object built by the constructor: the members `_header` and `_geoips`, and, as a
record of what the construction did, the arguments of every call of
`ZlibByteArray::uncompress` and of `GeoIp::fromString`, in call order. -/
structure GeoIpResponse (GeoIp : Type) where
  _header : QHttpResponseHeader
  _geoips : List GeoIp
  uncompressCalls : List (QByteArray × CompressionMethod)
  fromStringCalls : List QString

/-- The `foreach (QString line, lines)` loop: each line goes through `GeoIp::fromString`
and is appended to `_geoips` unless the result is empty. -/
def parseLines {GeoIp : Type} (C : Collaborators GeoIp) :
    List QString → List GeoIp → List GeoIp
  | [], geoips => geoips
  | line :: lines, geoips =>
    let geoip := C.fromString line
    if !C.isEmpty geoip then parseLines C lines (geoips ++ [geoip])
    else parseLines C lines geoips

/-- `GeoIpResponse::GeoIpResponse(QByteArray response)`. -/
def GeoIpResponse.GeoIpResponse {GeoIp : Type} (C : Collaborators GeoIp)
    (response : QByteArray) : GeoIpResponse GeoIp :=
  let headerPos := indexOf response CRLFCRLF
  let _header := C.parseHeader (fromAscii (mid response 0 headerPos))
  if headerPos > 0 ∧ _header.statusCode = STATUS_HTTP_OK then
    let content := mid response (headerPos + 4) (-1)
    if _header.hasKey (qs "Content-Encoding") then
      let encoding := _header.value (qs "Content-Encoding")
      let method : Option CompressionMethod :=
        if encoding = qs "gzip" ∨ encoding = qs "x-gzip" then some CompressionMethod.Gzip
        else if encoding = qs "deflate" ∨ encoding = qs "x-deflate" then
          some CompressionMethod.Zlib
        else if encoding = qs "text/plain" then some CompressionMethod.None
        else none
      match method with
      | none =>
        { _header := _header.setStatusLine STATUS_CONTENT_ENCODING_ERR
            (arg (qs "Unknown content encoding '%1'") encoding),
          _geoips := [], uncompressCalls := [], fromStringCalls := [] }
      | some method =>
        let r := C.uncompress content method
        if r.1.isEmpty then
          { _header := _header.setStatusLine STATUS_CONTENT_ENCODING_ERR
              (arg (arg (qs "Content decoding using method '%1' failed: %2") encoding) r.2),
            _geoips := [], uncompressCalls := [(content, method)], fromStringCalls := [] }
        else
          let lines := split '\n' (fromAscii r.1)
          { _header := _header, _geoips := parseLines C lines [],
            uncompressCalls := [(content, method)], fromStringCalls := lines }
    else
      let lines := split '\n' (fromAscii content)
      { _header := _header, _geoips := parseLines C lines [],
        uncompressCalls := [], fromStringCalls := lines }
  else
    { _header := _header, _geoips := [], uncompressCalls := [], fromStringCalls := [] }


/-- The header as the parser produced it (line 47 of the constructor): the parse of
the bytes before the separator, which is `response.mid(0, headerPos)`. -/
def parsedHeader {GeoIp : Type} (C : Collaborators GeoIp) (response : QByteArray) :
    QHttpResponseHeader :=
  C.parseHeader (fromAscii (mid response 0 (indexOf response CRLFCRLF)))

/-! ## A concrete choice of the collaborators -/

/-- `QString::trimmed()`: white space removed at both ends. -/
def trimmed (s : QString) : QString :=
  ((s.dropWhile Char.isWhitespace).reverse.dropWhile Char.isWhitespace).reverse

/-- The number written by a string of decimal digits. -/
def digitsValue (s : QString) : Nat := s.foldl (fun n c => 10 * n + digitValue c) 0

/-- Modelled from the spec: the status line of a header block, which
`QHttpResponseHeader` (Qt, outside the sources) reads: a protocol token starting with
HTTP/, then the status code in decimal digits, then the status message. -/
def parseStatusLine (l : QString) : Option (Nat × QString) :=
  let token := l.takeWhile (fun c => c != ' ')
  let rest := (l.dropWhile (fun c => c != ' ')).drop 1
  let code := rest.takeWhile (fun c => c != ' ')
  let reason := (rest.dropWhile (fun c => c != ' ')).drop 1
  if (qs "HTTP/").isPrefixOf token && !code.isEmpty && code.all Char.isDigit then
    some (digitsValue code, reason)
  else none

/-- Modelled from the spec: one field line of a header block, Name: Value, both trimmed;
a line without a colon is no field. -/
def parseFieldLine (l : QString) : Option (QString × QString) :=
  if l.contains ':' then
    some (trimmed (l.takeWhile (fun c => c != ':')),
      trimmed ((l.dropWhile (fun c => c != ':')).drop 1))
  else none

/-- Modelled from the spec: `QHttpResponseHeader(const QString &)` (Qt, outside the
sources). The first line of the block is the status line, the following lines are header
fields, lines without a colon are ignored; a block without a readable status line gives a
header that is not valid and has status code 0. -/
def sampleParseHeader (str : QString) : QHttpResponseHeader :=
  match (split '\n' str).map trimmed with
  | [] => { valid := false, statCode := 0, reasonPhr := [], majVer := 0, minVer := 0,
            values := [] }
  | first :: others =>
    match parseStatusLine first with
    | none => { valid := false, statCode := 0, reasonPhr := [], majVer := 0, minVer := 0,
                values := [] }
    | some (code, reason) =>
      { valid := true, statCode := (code : Int), reasonPhr := reason, majVer := 1,
        minVer := 1, values := others.filterMap parseFieldLine }

/-- Modelled from the spec: `ZlibByteArray::uncompress` (outside the sources). Identity
returns the bytes unchanged and leaves no diagnostic; a stream that cannot be decoded
gives an empty array and a diagnostic text. The inflate algorithm is not reproduced: for
Gzip and Zlib only a stored stream is decoded, the two magic bytes 1f 8b (Gzip) or 78 01
(Zlib) followed by the payload as it is. -/
def sampleUncompress (input : QByteArray) : CompressionMethod → QByteArray × QString
  | CompressionMethod.None => (input, [])
  | CompressionMethod.Gzip =>
    match input with
    | 0x1f :: 0x8b :: payload => (payload, [])
    | _ => ([], qs "incorrect header check")
  | CompressionMethod.Zlib =>
    match input with
    | 0x78 :: 0x01 :: payload => (payload, [])
    | _ => ([], qs "incorrect header check")

/-- Modelled from the spec: `GeoIp::fromString` (outside the sources), an opaque
constructor that gives a populated Record or an explicitly empty one. Here a Record is
the list of the comma-separated fields of the trimmed line, and a line with fewer than
two fields, or a blank first field, gives the empty Record. -/
def sampleFromString (line : QString) : List QString :=
  let data := split ',' (trimmed line)
  if data.length < 2 || (data.headD []).isEmpty then [] else data

/-- The collaborators used in the concrete examples. -/
def sampleCollaborators : Collaborators (List QString) where
  parseHeader := sampleParseHeader
  uncompress := sampleUncompress
  fromString := sampleFromString
  isEmpty := List.isEmpty

/-- The table of the spec (section 4.2), in the spec's words: gzip and x-gzip select
Gzip, deflate and x-deflate select Zlib-deflate, text/plain selects Identity, anything
else is unsupported. -/
def specEncodingTable (t : QString) : Option CompressionMethod :=
  if t ∈ [qs "gzip", qs "x-gzip"] then some CompressionMethod.Gzip
  else if t ∈ [qs "deflate", qs "x-deflate"] then some CompressionMethod.Zlib
  else if t ∈ [qs "text/plain"] then some CompressionMethod.None
  else none

/-! ## The server page: bandwidth limits (`src/gui/config/serverpage.cpp`) -/

/-- Minimum allowed bandwidth rate (20KB). -/
def MIN_BANDWIDTH_RATE : Nat := 20

/-- Maximum bandwidth rate, in kilobytes. -/
def MAX_BANDWIDTH_RATE : Nat := 2097151

/-- The values of a `quint32`: arithmetic is taken modulo this. -/
def UINT_SIZE : Nat := 2 ^ 32

/-- `QString::toUInt()`: the number written by the text in decimal digits, white space
around it ignored; 0 when the text is no such number or does not fit an unsigned int. -/
def toUInt (s : QString) : Nat :=
  if trimmed s ≠ [] ∧ (trimmed s).all Char.isDigit = true ∧ digitsValue (trimmed s) < UINT_SIZE
  then digitsValue (trimmed s)
  else 0

/-- The decimal digits of `n`, most significant first; `fuel` bounds the number of
digits. -/
def numberAux : Nat → Nat → QString
  | 0, _ => []
  | fuel + 1, n =>
    if n < 10 then [Nat.digitChar n]
    else numberAux fuel (n / 10) ++ [Nat.digitChar (n % 10)]

/-- `QString::number(uint)`: the number in decimal digits. -/
def number (n : Nat) : QString := numberAux (n + 1) n

/-- Index values of the entries of the bandwidth limits dropdown box, the enum
`BwRateIndex` of `serverpage.h` (a header outside the sources); the box holds these six
entries. -/
inductive BwRateIndex where
  | CableDsl256
  | CableDsl512
  | CableDsl768
  | T1CableDsl1500
  | GreaterThan1500
  | CustomBwLimits
deriving DecidableEq, Repr

/-- Modelled from the spec: the part of `ServerSettings` (outside the sources) that the
bandwidth code uses, a key/value storage: `setBandwidthAvgRate` and
`setBandwidthBurstRate` store a `quint32`, `getBandwidthAvgRate` and
`getBandwidthBurstRate` return what is stored. -/
structure ServerSettings where
  bandwidthAvgRate : Nat
  bandwidthBurstRate : Nat
deriving DecidableEq, Repr

namespace ServerSettings

end ServerSettings

/-- The part of a `ServerPage` that the bandwidth code reads and writes: the current
entry of `ui.cmboRate`, the texts of `ui.lineAvgRateLimit` and `ui.lineMaxRateLimit`, and
the settings object. -/
structure ServerPage where
  cmboRate : BwRateIndex
  lineAvgRateLimit : QString
  lineMaxRateLimit : QString
  _settings : ServerSettings
deriving DecidableEq, Repr

namespace ServerPage

/-- `ServerPage::customRateChanged()`. Both comparisons of the second half use the
`avgRate` and `burstRate` read from the fields, as the source does. -/
def customRateChanged (page : ServerPage) : ServerPage :=
  let avgRate := toUInt page.lineAvgRateLimit
  let page1 :=
    if avgRate < MIN_BANDWIDTH_RATE then
      { page with lineAvgRateLimit := number MIN_BANDWIDTH_RATE }
    else page
  let page2 :=
    if avgRate > MAX_BANDWIDTH_RATE then
      { page1 with lineAvgRateLimit := number MAX_BANDWIDTH_RATE }
    else page1
  let burstRate := toUInt page2.lineMaxRateLimit
  let page3 :=
    if avgRate > burstRate then { page2 with lineMaxRateLimit := number avgRate }
    else page2
  if burstRate > MAX_BANDWIDTH_RATE then
    { page3 with lineMaxRateLimit := number MAX_BANDWIDTH_RATE }
  else page3

end ServerPage

/-- A page with the given rate texts, the custom entry selected and nothing stored. -/
def samplePage (avg max : QString) : ServerPage :=
  { cmboRate := BwRateIndex.CustomBwLimits, lineAvgRateLimit := avg,
    lineMaxRateLimit := max,
    _settings := { bandwidthAvgRate := 0, bandwidthBurstRate := 0 } }

/-- The words of the claim about record parsing: a byte array split on a separator
byte, empty parts kept. -/
def splitBytes (sep : UInt8) : QByteArray → List QByteArray
  | [] => [[]]
  | b :: bs =>
    if b = sep then [] :: splitBytes sep bs
    else
      match splitBytes sep bs with
      | [] => [[b]]
      | l :: ls => (b :: l) :: ls

/-- The words of the claim about record parsing: the bytes are split on the line-feed
byte, `GeoIp::fromString` is applied to the text of each line in order, and exactly the
results that are not empty are kept. -/
def recordsOfBytes {GeoIp : Type} (C : Collaborators GeoIp) (body : QByteArray) :
    List GeoIp :=
  ((splitBytes 10 body).map (fun l => C.fromString (fromAscii l))).filter
    (fun g => !C.isEmpty g)

/-! ## Facts about the Qt value classes -/

theorem mid_to_end (ba : QByteArray) (p : Nat) : mid ba (p : Int) (-1) = ba.drop p := by
  unfold mid
  by_cases h : ba.isEmpty ∨ (p : Int) ≥ (ba.length : Int)
  · rw [if_pos h]
    rcases h with h | h
    · simp only [List.isEmpty_iff] at h
      subst h
      simp
    · have : ba.length ≤ p := by omega
      simp [List.drop_eq_nil_iff.mpr this]
  · rw [if_neg h]
    push_neg at h
    have h2 : p < ba.length := by omega
    have e1 : ¬ ((p : Int) < 0) := by omega
    simp only [e1, if_false, show ((-1 : Int) < 0) from by decide, if_true]
    have e2 : ¬ ((ba.length : Int) - (p : Int) + (p : Int) > (ba.length : Int)) := by omega
    simp only [e2, if_false, Int.toNat_ofNat]
    have e3 : ((ba.length : Int) - (p : Int)).toNat = ba.length - p := by omega
    rw [e3]
    apply List.take_of_length_le
    simp

theorem mid_whole (ba : QByteArray) : mid ba 0 (-1) = ba := by
  have := mid_to_end ba 0
  simpa using this

theorem indexOfFrom_spec (needle : QByteArray) (l : QByteArray) (i : Nat) :
    (indexOfFrom needle l i = -1 ∧ ¬ needle <:+: l) ∨
    (∃ k : Nat, indexOfFrom needle l i = ((i + k : Nat) : Int) ∧ k ≤ l.length ∧
      needle <+: l.drop k ∧ ∀ q, q < k → ¬ needle <+: l.drop q) := by
  induction l generalizing i with
  | nil =>
    unfold indexOfFrom
    by_cases h : needle.isPrefixOf [] = true
    · right
      refine ⟨0, by simp [h], le_refl _, ?_, fun q hq => absurd hq (Nat.not_lt_zero q)⟩
      simpa using List.isPrefixOf_iff_prefix.mp h
    · left
      refine ⟨by simp [h], ?_⟩
      intro hin
      apply h
      have : needle = [] := by simpa using hin
      subst this
      rfl
  | cons b bs ih =>
    unfold indexOfFrom
    by_cases h : needle.isPrefixOf (b :: bs) = true
    · right
      refine ⟨0, by simp [h], Nat.zero_le _, ?_, fun q hq => absurd hq (Nat.not_lt_zero q)⟩
      simpa using List.isPrefixOf_iff_prefix.mp h
    · have hnp : ¬ needle <+: b :: bs := fun hp => h (List.isPrefixOf_iff_prefix.mpr hp)
      rw [if_neg h]
      rcases ih (i + 1) with ⟨h1, h2⟩ | ⟨k, h1, h2, h3, h4⟩
      · left
        refine ⟨h1, ?_⟩
        intro hin
        rcases List.infix_cons_iff.mp hin with hp | hi
        · exact hnp hp
        · exact h2 hi
      · right
        refine ⟨k + 1, ?_, ?_, ?_, ?_⟩
        · rw [h1]
          congr 1
          omega
        · simpa using h2
        · simpa using h3
        · intro q hq
          cases q with
          | zero => simpa using hnp
          | succ q =>
            have := h4 q (by omega)
            simpa using this

/-- What `indexOf` returns: -1 when the needle does not occur, otherwise the position
of its first occurrence. -/
theorem indexOf_spec (needle : QByteArray) (l : QByteArray) :
    (indexOf l needle = -1 ∧ ¬ needle <:+: l) ∨
    (∃ k : Nat, indexOf l needle = (k : Int) ∧ k ≤ l.length ∧
      needle <+: l.drop k ∧ ∀ q, q < k → ¬ needle <+: l.drop q) := by
  rcases indexOfFrom_spec needle l 0 with h | ⟨k, h1, h2, h3, h4⟩
  · exact Or.inl h
  · exact Or.inr ⟨k, by simpa [indexOf] using h1, h2, h3, h4⟩

theorem infix_of_prefix_drop (needle l : QByteArray) (k : Nat) (h : needle <+: l.drop k) :
    needle <:+: l := by
  obtain ⟨t, ht⟩ := h
  exact ⟨l.take k, t, by rw [List.append_assoc, ht, List.take_append_drop]⟩

theorem indexOf_eq_neg_one_iff (needle l : QByteArray) :
    indexOf l needle = -1 ↔ ¬ needle <:+: l := by
  rcases indexOf_spec needle l with ⟨h1, h2⟩ | ⟨k, h1, _, h3, _⟩
  · exact ⟨fun _ => h2, fun _ => h1⟩
  · constructor
    · intro h
      rw [h1] at h
      omega
    · intro h
      exact absurd (infix_of_prefix_drop needle l k h3) h


/-! ## The branches of the constructor -/

theorem parseLines_eq {GeoIp : Type} (C : Collaborators GeoIp) (lines : List QString)
    (geoips : List GeoIp) :
    parseLines C lines geoips =
      geoips ++ (lines.map C.fromString).filter (fun g => !C.isEmpty g) := by
  induction lines generalizing geoips with
  | nil => simp [parseLines]
  | cons line lines ih =>
    unfold parseLines
    by_cases h : C.isEmpty (C.fromString line) = true
    · simp [h, ih]
    · simp [h, ih]

/-- The body of a response whose separator is at `p`: `response.mid(headerPos+4)`. -/
theorem mid_body (response : QByteArray) (p : Nat) :
    mid response ((p : Int) + 4) (-1) = response.drop (p + 4) := by
  have := mid_to_end response (p + 4)
  rwa [Nat.cast_add] at this

/-- Outside the guard of line 50 nothing is done after the header parse. -/
theorem ctor_no_body {GeoIp : Type} (C : Collaborators GeoIp) (response : QByteArray)
    (h : ¬ (indexOf response CRLFCRLF > 0 ∧
      (parsedHeader C response).statusCode = STATUS_HTTP_OK)) :
    GeoIpResponse.GeoIpResponse C response =
      { _header := parsedHeader C response, _geoips := [], uncompressCalls := [],
        fromStringCalls := [] } := by
  unfold parsedHeader at h
  unfold GeoIpResponse.GeoIpResponse parsedHeader
  simp only []
  rw [if_neg h]

/-- Inside the guard, without a Content-Encoding field: the body is parsed as it is. -/
theorem ctor_plain {GeoIp : Type} (C : Collaborators GeoIp) (response : QByteArray)
    (p : Nat) (hp : indexOf response CRLFCRLF = (p : Int)) (hpos : 0 < p)
    (hstatus : (parsedHeader C response).statusCode = 200)
    (hkey : (parsedHeader C response).hasKey (qs "Content-Encoding") = false) :
    GeoIpResponse.GeoIpResponse C response =
      { _header := parsedHeader C response,
        _geoips := parseLines C (split '\n' (fromAscii (response.drop (p + 4)))) [],
        uncompressCalls := [],
        fromStringCalls := split '\n' (fromAscii (response.drop (p + 4))) } := by
  unfold parsedHeader at hstatus hkey
  unfold GeoIpResponse.GeoIpResponse parsedHeader
  have hc : indexOf response CRLFCRLF > 0 ∧
      (C.parseHeader (fromAscii (mid response 0 (indexOf response CRLFCRLF)))).statusCode
        = STATUS_HTTP_OK := ⟨by rw [hp]; exact_mod_cast hpos, hstatus⟩
  simp only []
  rw [if_pos hc, hkey]
  simp only [Bool.false_eq_true, if_false]
  rw [hp, mid_body]

/-- Inside the guard, with a Content-Encoding value outside the five known tokens: the
status line is overwritten and the constructor returns. -/
theorem ctor_unknown {GeoIp : Type} (C : Collaborators GeoIp) (response : QByteArray)
    (p : Nat) (t : QString) (hp : indexOf response CRLFCRLF = (p : Int)) (hpos : 0 < p)
    (hstatus : (parsedHeader C response).statusCode = 200)
    (hkey : (parsedHeader C response).hasKey (qs "Content-Encoding") = true)
    (hval : (parsedHeader C response).value (qs "Content-Encoding") = t)
    (h1 : t ≠ qs "gzip") (h2 : t ≠ qs "x-gzip") (h3 : t ≠ qs "deflate")
    (h4 : t ≠ qs "x-deflate") (h5 : t ≠ qs "text/plain") :
    GeoIpResponse.GeoIpResponse C response =
      { _header := (parsedHeader C response).setStatusLine 601
          (arg (qs "Unknown content encoding '%1'") t),
        _geoips := [], uncompressCalls := [], fromStringCalls := [] } := by
  unfold parsedHeader at hstatus hkey hval
  unfold GeoIpResponse.GeoIpResponse parsedHeader
  have hc : indexOf response CRLFCRLF > 0 ∧
      (C.parseHeader (fromAscii (mid response 0 (indexOf response CRLFCRLF)))).statusCode
        = STATUS_HTTP_OK := ⟨by rw [hp]; exact_mod_cast hpos, hstatus⟩
  simp only []
  rw [if_pos hc, hkey, hval]
  simp only [if_true, h1, h2, h3, h4, h5, or_self, if_false]
  rfl

/-- Inside the guard, with a known Content-Encoding token: the body goes through the
decompressor with the method of that token, and an empty output is a decoding error. -/
theorem ctor_known {GeoIp : Type} (C : Collaborators GeoIp) (response : QByteArray)
    (p : Nat) (t : QString) (m : CompressionMethod)
    (hp : indexOf response CRLFCRLF = (p : Int)) (hpos : 0 < p)
    (hstatus : (parsedHeader C response).statusCode = 200)
    (hkey : (parsedHeader C response).hasKey (qs "Content-Encoding") = true)
    (hval : (parsedHeader C response).value (qs "Content-Encoding") = t)
    (ht : ((t = qs "gzip" ∨ t = qs "x-gzip") ∧ m = CompressionMethod.Gzip) ∨
      ((t = qs "deflate" ∨ t = qs "x-deflate") ∧ m = CompressionMethod.Zlib) ∨
      (t = qs "text/plain" ∧ m = CompressionMethod.None)) :
    GeoIpResponse.GeoIpResponse C response =
      if (C.uncompress (response.drop (p + 4)) m).1.isEmpty then
        { _header := (parsedHeader C response).setStatusLine 601
            (arg (arg (qs "Content decoding using method '%1' failed: %2") t)
              (C.uncompress (response.drop (p + 4)) m).2),
          _geoips := [], uncompressCalls := [(response.drop (p + 4), m)],
          fromStringCalls := [] }
      else
        { _header := parsedHeader C response,
          _geoips := parseLines C
            (split '\n' (fromAscii (C.uncompress (response.drop (p + 4)) m).1)) [],
          uncompressCalls := [(response.drop (p + 4), m)],
          fromStringCalls :=
            split '\n' (fromAscii (C.uncompress (response.drop (p + 4)) m).1) } := by
  unfold parsedHeader at hstatus hkey hval
  unfold GeoIpResponse.GeoIpResponse parsedHeader
  have hc : indexOf response CRLFCRLF > 0 ∧
      (C.parseHeader (fromAscii (mid response 0 (indexOf response CRLFCRLF)))).statusCode
        = STATUS_HTTP_OK := ⟨by rw [hp]; exact_mod_cast hpos, hstatus⟩
  simp only []
  rw [if_pos hc, hkey, hval, hp, mid_body]
  rcases ht with ⟨ht | ht, hm⟩ | ⟨ht | ht, hm⟩ | ⟨ht, hm⟩ <;> subst ht <;> subst hm <;>
    simp only [if_true] <;> rfl


/-- What `arg` makes of the message for an unknown encoding. -/
theorem arg_unknown_encoding (t : QString) :
    arg (qs "Unknown content encoding '%1'") t =
      qs "Unknown content encoding '" ++ t ++ qs "'" := rfl

/-- What the two `arg` calls make of the message for a failed decoding, for the five
known tokens. -/
theorem arg_decoding_failed (e d : QString)
    (he : e = qs "gzip" ∨ e = qs "x-gzip" ∨ e = qs "deflate" ∨ e = qs "x-deflate" ∨
      e = qs "text/plain") :
    arg (arg (qs "Content decoding using method '%1' failed: %2") e) d =
      qs "Content decoding using method '" ++ e ++ qs "' failed: " ++ d := by
  have aux : arg (arg (qs "Content decoding using method '%1' failed: %2") e) d =
      qs "Content decoding using method '" ++ e ++ qs "' failed: " ++ (d ++ []) := by
    rcases he with h | h | h | h | h <;> subst h <;> rfl
  rw [aux, List.append_nil]

/-- With a known token the decompressor is called once, on the body and with the method
of the token, whatever it returns. -/
theorem calls_known {GeoIp : Type} (C : Collaborators GeoIp) (response : QByteArray)
    (p : Nat) (t : QString) (m : CompressionMethod)
    (hp : indexOf response CRLFCRLF = (p : Int)) (hpos : 0 < p)
    (hstatus : (parsedHeader C response).statusCode = 200)
    (hkey : (parsedHeader C response).hasKey (qs "Content-Encoding") = true)
    (hval : (parsedHeader C response).value (qs "Content-Encoding") = t)
    (ht : ((t = qs "gzip" ∨ t = qs "x-gzip") ∧ m = CompressionMethod.Gzip) ∨
      ((t = qs "deflate" ∨ t = qs "x-deflate") ∧ m = CompressionMethod.Zlib) ∨
      (t = qs "text/plain" ∧ m = CompressionMethod.None)) :
    (GeoIpResponse.GeoIpResponse C response).uncompressCalls = [(response.drop (p + 4), m)] := by
  rw [ctor_known C response p t m hp hpos hstatus hkey hval ht]
  split <;> rfl

/-- With a known token, either the decompressor returns nothing and the constructor
reports the decoding error, or the lines of its output are parsed. -/
theorem ctor_known_cases {GeoIp : Type} (C : Collaborators GeoIp) (response : QByteArray)
    (p : Nat) (t : QString) (m : CompressionMethod)
    (hp : indexOf response CRLFCRLF = (p : Int)) (hpos : 0 < p)
    (hstatus : (parsedHeader C response).statusCode = 200)
    (hkey : (parsedHeader C response).hasKey (qs "Content-Encoding") = true)
    (hval : (parsedHeader C response).value (qs "Content-Encoding") = t)
    (ht : ((t = qs "gzip" ∨ t = qs "x-gzip") ∧ m = CompressionMethod.Gzip) ∨
      ((t = qs "deflate" ∨ t = qs "x-deflate") ∧ m = CompressionMethod.Zlib) ∨
      (t = qs "text/plain" ∧ m = CompressionMethod.None)) :
    ((C.uncompress (response.drop (p + 4)) m).1 = [] ∧
      GeoIpResponse.GeoIpResponse C response =
        { _header := (parsedHeader C response).setStatusLine 601
            (arg (arg (qs "Content decoding using method '%1' failed: %2") t)
              (C.uncompress (response.drop (p + 4)) m).2),
          _geoips := [], uncompressCalls := [(response.drop (p + 4), m)],
          fromStringCalls := [] }) ∨
    ((C.uncompress (response.drop (p + 4)) m).1 ≠ [] ∧
      GeoIpResponse.GeoIpResponse C response =
        { _header := parsedHeader C response,
          _geoips := parseLines C
            (split '\n' (fromAscii (C.uncompress (response.drop (p + 4)) m).1)) [],
          uncompressCalls := [(response.drop (p + 4), m)],
          fromStringCalls :=
            split '\n' (fromAscii (C.uncompress (response.drop (p + 4)) m).1) }) := by
  have hk := ctor_known C response p t m hp hpos hstatus hkey hval ht
  by_cases he : (C.uncompress (response.drop (p + 4)) m).1 = []
  · left
    refine ⟨he, ?_⟩
    rw [hk, he]
    rfl
  · right
    refine ⟨he, ?_⟩
    have he2 : (C.uncompress (response.drop (p + 4)) m).1.isEmpty = false := by
      cases hc : (C.uncompress (response.drop (p + 4)) m).1 with
      | nil => exact absurd hc he
      | cons _ _ => rfl
    rw [hk, he2]
    rfl

/-- The five ways through the constructor. -/
theorem ctor_cases {GeoIp : Type} (C : Collaborators GeoIp) (response : QByteArray) :
    (¬ (indexOf response CRLFCRLF > 0 ∧
        (parsedHeader C response).statusCode = STATUS_HTTP_OK) ∧
      GeoIpResponse.GeoIpResponse C response =
        { _header := parsedHeader C response, _geoips := [], uncompressCalls := [],
          fromStringCalls := [] }) ∨
    ∃ p : Nat, indexOf response CRLFCRLF = (p : Int) ∧ 0 < p ∧
      (parsedHeader C response).statusCode = 200 ∧
      (((parsedHeader C response).hasKey (qs "Content-Encoding") = false ∧
        GeoIpResponse.GeoIpResponse C response =
          { _header := parsedHeader C response,
            _geoips := parseLines C (split '\n' (fromAscii (response.drop (p + 4)))) [],
            uncompressCalls := [],
            fromStringCalls := split '\n' (fromAscii (response.drop (p + 4))) }) ∨
       ((parsedHeader C response).hasKey (qs "Content-Encoding") = true ∧
        specEncodingTable ((parsedHeader C response).value (qs "Content-Encoding")) = none ∧
        GeoIpResponse.GeoIpResponse C response =
          { _header := (parsedHeader C response).setStatusLine 601
              (arg (qs "Unknown content encoding '%1'")
                ((parsedHeader C response).value (qs "Content-Encoding"))),
            _geoips := [], uncompressCalls := [], fromStringCalls := [] }) ∨
       ((parsedHeader C response).hasKey (qs "Content-Encoding") = true ∧
        ∃ m, specEncodingTable ((parsedHeader C response).value (qs "Content-Encoding"))
            = some m ∧
          (C.uncompress (response.drop (p + 4)) m).1 = [] ∧
          GeoIpResponse.GeoIpResponse C response =
            { _header := (parsedHeader C response).setStatusLine 601
                (arg (arg (qs "Content decoding using method '%1' failed: %2")
                  ((parsedHeader C response).value (qs "Content-Encoding")))
                  (C.uncompress (response.drop (p + 4)) m).2),
              _geoips := [], uncompressCalls := [(response.drop (p + 4), m)],
              fromStringCalls := [] }) ∨
       ((parsedHeader C response).hasKey (qs "Content-Encoding") = true ∧
        ∃ m, specEncodingTable ((parsedHeader C response).value (qs "Content-Encoding"))
            = some m ∧
          (C.uncompress (response.drop (p + 4)) m).1 ≠ [] ∧
          GeoIpResponse.GeoIpResponse C response =
            { _header := parsedHeader C response,
              _geoips := parseLines C
                (split '\n' (fromAscii (C.uncompress (response.drop (p + 4)) m).1)) [],
              uncompressCalls := [(response.drop (p + 4), m)],
              fromStringCalls :=
                split '\n' (fromAscii (C.uncompress (response.drop (p + 4)) m).1) })) := by
  by_cases hg : indexOf response CRLFCRLF > 0 ∧
      (parsedHeader C response).statusCode = STATUS_HTTP_OK
  · right
    obtain ⟨hg1, hg2⟩ := hg
    rcases indexOf_spec CRLFCRLF response with ⟨h1, _⟩ | ⟨p, hp, _, _, _⟩
    · rw [h1] at hg1
      omega
    · have hpos : 0 < p := by
        rw [hp] at hg1
        exact_mod_cast hg1
      refine ⟨p, hp, hpos, hg2, ?_⟩
      cases hkey : (parsedHeader C response).hasKey (qs "Content-Encoding") with
      | false => exact Or.inl ⟨rfl, ctor_plain C response p hp hpos hg2 hkey⟩
      | true =>
        right
        by_cases h1 : (parsedHeader C response).value (qs "Content-Encoding") = qs "gzip"
        · rcases ctor_known_cases C response p _ _ hp hpos hg2 hkey rfl
            (Or.inl ⟨Or.inl h1, rfl⟩) with ⟨he, hk⟩ | ⟨he, hk⟩
          · exact Or.inr (Or.inl ⟨rfl, _, by rw [h1]; rfl, he, hk⟩)
          · exact Or.inr (Or.inr ⟨rfl, _, by rw [h1]; rfl, he, hk⟩)
        by_cases h2 : (parsedHeader C response).value (qs "Content-Encoding") = qs "x-gzip"
        · rcases ctor_known_cases C response p _ _ hp hpos hg2 hkey rfl
            (Or.inl ⟨Or.inr h2, rfl⟩) with ⟨he, hk⟩ | ⟨he, hk⟩
          · exact Or.inr (Or.inl ⟨rfl, _, by rw [h2]; rfl, he, hk⟩)
          · exact Or.inr (Or.inr ⟨rfl, _, by rw [h2]; rfl, he, hk⟩)
        by_cases h3 : (parsedHeader C response).value (qs "Content-Encoding") = qs "deflate"
        · rcases ctor_known_cases C response p _ _ hp hpos hg2 hkey rfl
            (Or.inr (Or.inl ⟨Or.inl h3, rfl⟩)) with ⟨he, hk⟩ | ⟨he, hk⟩
          · exact Or.inr (Or.inl ⟨rfl, _, by rw [h3]; rfl, he, hk⟩)
          · exact Or.inr (Or.inr ⟨rfl, _, by rw [h3]; rfl, he, hk⟩)
        by_cases h4 : (parsedHeader C response).value (qs "Content-Encoding") = qs "x-deflate"
        · rcases ctor_known_cases C response p _ _ hp hpos hg2 hkey rfl
            (Or.inr (Or.inl ⟨Or.inr h4, rfl⟩)) with ⟨he, hk⟩ | ⟨he, hk⟩
          · exact Or.inr (Or.inl ⟨rfl, _, by rw [h4]; rfl, he, hk⟩)
          · exact Or.inr (Or.inr ⟨rfl, _, by rw [h4]; rfl, he, hk⟩)
        by_cases h5 : (parsedHeader C response).value (qs "Content-Encoding") = qs "text/plain"
        · rcases ctor_known_cases C response p _ _ hp hpos hg2 hkey rfl
            (Or.inr (Or.inr ⟨h5, rfl⟩)) with ⟨he, hk⟩ | ⟨he, hk⟩
          · exact Or.inr (Or.inl ⟨rfl, _, by rw [h5]; rfl, he, hk⟩)
          · exact Or.inr (Or.inr ⟨rfl, _, by rw [h5]; rfl, he, hk⟩)
        · left
          refine ⟨rfl, ?_, ctor_unknown C response p _ hp hpos hg2 hkey rfl h1 h2 h3 h4 h5⟩
          simp [specEncodingTable, h1, h2, h3, h4, h5]
  · exact Or.inl ⟨hg, ctor_no_body C response hg⟩

/-! ## The text of a byte array, line by line -/

set_option maxRecDepth 100000 in
theorem ofNat_line_feed : ∀ n, n < 256 → (Char.ofNat n = '\n' ↔ n = 10) := by decide

theorem byte_line_feed (b : UInt8) : Char.ofNat b.toNat = '\n' ↔ b = 10 := by
  rw [ofNat_line_feed b.toNat b.val.isLt]
  constructor
  · intro h10
    exact UInt8.ext (by simpa using h10)
  · intro hb
    subst hb
    rfl

theorem fromAscii_cons (b : UInt8) (bs : QByteArray) (hb : b ≠ 0) :
    fromAscii (b :: bs) = Char.ofNat b.toNat :: fromAscii bs := by
  unfold fromAscii
  rw [List.takeWhile_cons]
  simp [hb]

theorem fromAscii_zero (bs : QByteArray) : fromAscii (0 :: bs) = [] := by
  unfold fromAscii
  rw [List.takeWhile_cons]
  simp

/-- The lines of the text of a byte array are the texts of the lines of its bytes before
the first 0 byte. -/
theorem split_fromAscii (bs : QByteArray) :
    split '\n' (fromAscii bs) =
      (splitBytes 10 (bs.takeWhile (fun b => b != 0))).map fromAscii := by
  induction bs with
  | nil => rfl
  | cons b bs ih =>
    by_cases hb : b = 0
    · subst hb
      rw [fromAscii_zero]
      rfl
    · have htw : (b :: bs).takeWhile (fun b => b != 0) = b :: bs.takeWhile (fun b => b != 0) := by
        rw [List.takeWhile_cons]
        simp [hb]
      rw [fromAscii_cons b bs hb, htw]
      unfold split splitBytes
      by_cases h10 : b = 10
      · have hc : Char.ofNat b.toNat = '\n' := (byte_line_feed b).mpr h10
        rw [if_pos hc, if_pos h10, ih]
        rfl
      · have hc : ¬ Char.ofNat b.toNat = '\n' := fun h => h10 ((byte_line_feed b).mp h)
        rw [if_neg hc, if_neg h10, ih]
        cases splitBytes 10 (bs.takeWhile (fun b => b != 0)) with
        | nil =>
          show [[Char.ofNat b.toNat]] = [fromAscii [b]]
          rw [fromAscii_cons b [] hb]
          rfl
        | cons l ls =>
          show (Char.ofNat b.toNat :: fromAscii l) :: ls.map fromAscii =
            fromAscii (b :: l) :: ls.map fromAscii
          rw [fromAscii_cons b l hb]

theorem takeWhile_nonzero_of_not_mem (bs : QByteArray) (h : (0 : UInt8) ∉ bs) :
    bs.takeWhile (fun b => b != 0) = bs := by
  induction bs with
  | nil => rfl
  | cons b bs ih =>
    have hb : b ≠ 0 := fun hb => h (by rw [hb]; exact List.mem_cons_self _ _)
    have hbs : (0 : UInt8) ∉ bs := fun hm => h (List.mem_cons_of_mem _ hm)
    rw [List.takeWhile_cons]
    simp [hb, ih hbs]

/-! ## The claims -/

/-- C1 (NoBody transition). When the separator CR LF CR LF does not occur in the buffer,
or the status code of the parsed header is not 200, the Record collection is empty, the
decompressor is not called, and the header (status code and message included) is the one
the header parser produced: no 601 status line is written over it. -/
theorem C1_no_body_transition {GeoIp : Type} (C : Collaborators GeoIp)
    (response : QByteArray)
    (h : ¬ CRLFCRLF <:+: response ∨ (parsedHeader C response).statusCode ≠ 200) :
    (GeoIpResponse.GeoIpResponse C response)._geoips = [] ∧
    (GeoIpResponse.GeoIpResponse C response).uncompressCalls = [] ∧
    (GeoIpResponse.GeoIpResponse C response)._header = parsedHeader C response ∧
    (GeoIpResponse.GeoIpResponse C response)._header.statusCode =
      (parsedHeader C response).statusCode ∧
    (GeoIpResponse.GeoIpResponse C response)._header.reasonPhrase =
      (parsedHeader C response).reasonPhrase := by
  have hg : ¬ (indexOf response CRLFCRLF > 0 ∧
      (parsedHeader C response).statusCode = STATUS_HTTP_OK) := by
    rintro ⟨h1, h2⟩
    rcases h with h | h
    · rw [(indexOf_eq_neg_one_iff CRLFCRLF response).mpr h] at h1
      omega
    · exact h h2
  rw [ctor_no_body C response hg]
  exact ⟨rfl, rfl, rfl, rfl, rfl⟩

/-- C1 at a concrete response with status 404. -/
theorem C1_no_body_transition_witness :
    (¬ CRLFCRLF <:+: bytes "HTTP/1.1 404 Not Found\r\n\r\n1.2.3.4,US" ∨
      (parsedHeader sampleCollaborators
        (bytes "HTTP/1.1 404 Not Found\r\n\r\n1.2.3.4,US")).statusCode ≠ 200) ∧
    (GeoIpResponse.GeoIpResponse sampleCollaborators
      (bytes "HTTP/1.1 404 Not Found\r\n\r\n1.2.3.4,US"))._geoips = [] :=
  ⟨Or.inr (by decide),
    (C1_no_body_transition sampleCollaborators
      (bytes "HTTP/1.1 404 Not Found\r\n\r\n1.2.3.4,US") (Or.inr (by decide))).1⟩

/-- C2 as stated fails: a buffer without the separator whose text is a status line with
code 200 gives a result with status code 200. -/
theorem C2_counterexample :
    ¬ CRLFCRLF <:+: bytes "HTTP/1.1 200 OK" ∧
    (GeoIpResponse.GeoIpResponse sampleCollaborators
      (bytes "HTTP/1.1 200 OK"))._header.statusCode = 200 := by
  refine ⟨?_, by decide⟩
  rw [← indexOf_eq_neg_one_iff]
  decide

/-- C2 (amended). For a buffer that does not contain the separator, the header parser is
given the whole buffer and the result carries exactly the header parsed from it, so
its status code is the one the parser reads there (200 is possible); the Record
collection is empty and neither the decompressor nor the record parser is called. -/
theorem C2_missing_separator {GeoIp : Type} (C : Collaborators GeoIp)
    (response : QByteArray) (h : ¬ CRLFCRLF <:+: response) :
    mid response 0 (indexOf response CRLFCRLF) = response ∧
    (GeoIpResponse.GeoIpResponse C response)._header =
      C.parseHeader (fromAscii response) ∧
    (GeoIpResponse.GeoIpResponse C response)._geoips = [] ∧
    (GeoIpResponse.GeoIpResponse C response).uncompressCalls = [] ∧
    (GeoIpResponse.GeoIpResponse C response).fromStringCalls = [] := by
  have hi := (indexOf_eq_neg_one_iff CRLFCRLF response).mpr h
  have hg : ¬ (indexOf response CRLFCRLF > 0 ∧
      (parsedHeader C response).statusCode = STATUS_HTTP_OK) := by
    rintro ⟨h1, _⟩
    rw [hi] at h1
    omega
  rw [ctor_no_body C response hg]
  refine ⟨by rw [hi, mid_whole], ?_, rfl, rfl, rfl⟩
  show parsedHeader C response = _
  unfold parsedHeader
  rw [hi, mid_whole]

/-- C2 (amended) at a concrete buffer without separator. -/
theorem C2_missing_separator_witness :
    ¬ CRLFCRLF <:+: bytes "HTTP/1.1 200 OK" ∧
    (GeoIpResponse.GeoIpResponse sampleCollaborators (bytes "HTTP/1.1 200 OK"))._geoips
      = [] :=
  have h : ¬ CRLFCRLF <:+: bytes "HTTP/1.1 200 OK" :=
    (indexOf_eq_neg_one_iff CRLFCRLF (bytes "HTTP/1.1 200 OK")).mp (by decide)
  ⟨h, (C2_missing_separator sampleCollaborators (bytes "HTTP/1.1 200 OK") h).2.2.1⟩

/-- C3 (unsupported encoding). For a buffer with the separator at `p > 0`, header status
200 and a Content-Encoding value `t` that is none of gzip, x-gzip, deflate, x-deflate,
text/plain, the result has status code 601, its status message is
"Unknown content encoding 't'" and so contains `t`, the Record collection is empty and
the decompressor is not called. -/
theorem C3_unsupported_encoding {GeoIp : Type} (C : Collaborators GeoIp)
    (response : QByteArray) (p : Nat) (t : QString)
    (hp : indexOf response CRLFCRLF = (p : Int)) (hpos : 0 < p)
    (hstatus : (parsedHeader C response).statusCode = 200)
    (hkey : (parsedHeader C response).hasKey (qs "Content-Encoding") = true)
    (hval : (parsedHeader C response).value (qs "Content-Encoding") = t)
    (ht : t ∉ [qs "gzip", qs "x-gzip", qs "deflate", qs "x-deflate", qs "text/plain"]) :
    (GeoIpResponse.GeoIpResponse C response)._header.statusCode = 601 ∧
    (GeoIpResponse.GeoIpResponse C response)._header.reasonPhrase =
      qs "Unknown content encoding '" ++ t ++ qs "'" ∧
    t <:+: (GeoIpResponse.GeoIpResponse C response)._header.reasonPhrase ∧
    (GeoIpResponse.GeoIpResponse C response)._geoips = [] ∧
    (GeoIpResponse.GeoIpResponse C response).uncompressCalls = [] := by
  simp only [List.mem_cons, List.mem_singleton, List.not_mem_nil, or_false, not_or] at ht
  obtain ⟨h1, h2, h3, h4, h5⟩ := ht
  rw [ctor_unknown C response p t hp hpos hstatus hkey hval h1 h2 h3 h4 h5]
  refine ⟨rfl, arg_unknown_encoding t, ?_, rfl, rfl⟩
  show t <:+: arg (qs "Unknown content encoding '%1'") t
  rw [arg_unknown_encoding]
  exact ⟨qs "Unknown content encoding '", qs "'", rfl⟩

/-- C3 at a concrete response declaring the encoding bogus. -/
theorem C3_unsupported_encoding_witness :
    (GeoIpResponse.GeoIpResponse sampleCollaborators
      (bytes "HTTP/1.1 200 OK\r\nContent-Encoding: bogus\r\n\r\n1.2.3.4,US"))._header.statusCode
      = 601 ∧
    (GeoIpResponse.GeoIpResponse sampleCollaborators
      (bytes "HTTP/1.1 200 OK\r\nContent-Encoding: bogus\r\n\r\n1.2.3.4,US"))._header.reasonPhrase
      = qs "Unknown content encoding 'bogus'" :=
  have h := C3_unsupported_encoding sampleCollaborators
    (bytes "HTTP/1.1 200 OK\r\nContent-Encoding: bogus\r\n\r\n1.2.3.4,US") 40 (qs "bogus")
    (by decide) (by decide) (by decide) (by decide) (by decide) (by decide)
  ⟨h.1, h.2.1⟩


/-- C4 (decode failure). For a buffer with the separator at `p > 0`, header status 200
and a known Content-Encoding token `e` with method `m`, when the decompressor returns an
empty byte array for the body and leaves the diagnostic `d`, the result has status code
601, its message is "Content decoding using method 'e' failed: d" and so embeds both `e`
and `d`, the Record collection is empty and no line reaches the record parser. -/
theorem C4_decode_failure {GeoIp : Type} (C : Collaborators GeoIp)
    (response : QByteArray) (p : Nat) (e d : QString) (m : CompressionMethod)
    (hp : indexOf response CRLFCRLF = (p : Int)) (hpos : 0 < p)
    (hstatus : (parsedHeader C response).statusCode = 200)
    (hkey : (parsedHeader C response).hasKey (qs "Content-Encoding") = true)
    (hval : (parsedHeader C response).value (qs "Content-Encoding") = e)
    (he : ((e = qs "gzip" ∨ e = qs "x-gzip") ∧ m = CompressionMethod.Gzip) ∨
      ((e = qs "deflate" ∨ e = qs "x-deflate") ∧ m = CompressionMethod.Zlib) ∨
      (e = qs "text/plain" ∧ m = CompressionMethod.None))
    (hfail : (C.uncompress (response.drop (p + 4)) m).1 = [])
    (hdiag : (C.uncompress (response.drop (p + 4)) m).2 = d) :
    (GeoIpResponse.GeoIpResponse C response)._header.statusCode = 601 ∧
    (GeoIpResponse.GeoIpResponse C response)._header.reasonPhrase =
      qs "Content decoding using method '" ++ e ++ qs "' failed: " ++ d ∧
    e <:+: (GeoIpResponse.GeoIpResponse C response)._header.reasonPhrase ∧
    d <:+: (GeoIpResponse.GeoIpResponse C response)._header.reasonPhrase ∧
    (GeoIpResponse.GeoIpResponse C response)._geoips = [] ∧
    (GeoIpResponse.GeoIpResponse C response).fromStringCalls = [] := by
  have he5 : e = qs "gzip" ∨ e = qs "x-gzip" ∨ e = qs "deflate" ∨ e = qs "x-deflate" ∨
      e = qs "text/plain" := by
    rcases he with ⟨h | h, _⟩ | ⟨h | h, _⟩ | ⟨h, _⟩ <;> simp [h]
  rw [ctor_known C response p e m hp hpos hstatus hkey hval he, hfail, hdiag]
  have hmsg := arg_decoding_failed e d he5
  refine ⟨rfl, hmsg, ?_, ?_, rfl, rfl⟩
  · show e <:+: arg (arg (qs "Content decoding using method '%1' failed: %2") e) d
    rw [hmsg]
    exact ⟨qs "Content decoding using method '", qs "' failed: " ++ d, by
      simp only [List.append_assoc]⟩
  · show d <:+: arg (arg (qs "Content decoding using method '%1' failed: %2") e) d
    rw [hmsg]
    exact ⟨qs "Content decoding using method '" ++ e ++ qs "' failed: ", [], by
      simp only [List.append_nil]⟩

/-- C4 at a concrete response that declares gzip and carries a body that is no gzip
stream. -/
theorem C4_decode_failure_witness :
    (GeoIpResponse.GeoIpResponse sampleCollaborators
      (bytes "HTTP/1.1 200 OK\r\nContent-Encoding: gzip\r\n\r\n1.2.3.4,US"))._header.statusCode
      = 601 ∧
    (GeoIpResponse.GeoIpResponse sampleCollaborators
      (bytes "HTTP/1.1 200 OK\r\nContent-Encoding: gzip\r\n\r\n1.2.3.4,US"))._header.reasonPhrase
      = qs "Content decoding using method 'gzip' failed: incorrect header check" :=
  have h := C4_decode_failure sampleCollaborators
    (bytes "HTTP/1.1 200 OK\r\nContent-Encoding: gzip\r\n\r\n1.2.3.4,US") 39 (qs "gzip")
    (qs "incorrect header check") CompressionMethod.Gzip
    (by decide) (by decide) (by decide) (by decide) (by decide) (by decide) (by decide)
    (by decide)
  ⟨h.1, h.2.1⟩

theorem filter_map_of_all_kept {GeoIp : Type} (C : Collaborators GeoIp)
    (lines : List QString) (h : ∀ l, l ∈ lines → C.isEmpty (C.fromString l) = false) :
    (lines.map C.fromString).filter (fun g => !C.isEmpty g) = lines.map C.fromString := by
  rw [List.filter_eq_self]
  intro g hg
  obtain ⟨l, hl, rfl⟩ := List.mem_map.mp hg
  simp [h l hl]

/-- C5 (gzip success path). For a buffer with the separator at `p > 0`, header status
200 and Content-Encoding gzip, whose body decompresses with the Gzip method to `N ≥ 1`
well-formed lines separated by line feeds (a line feed after the last line is allowed),
the status code stays 200 and the Record collection has exactly `N` entries, the i-th
being the Record built from the i-th line. A well-formed line is one whose Record is not
empty; a blank line gives an empty Record. -/
theorem C5_gzip_success {GeoIp : Type} (C : Collaborators GeoIp)
    (response : QByteArray) (p N : Nat) (lines : List QString)
    (hp : indexOf response CRLFCRLF = (p : Int)) (hpos : 0 < p)
    (hstatus : (parsedHeader C response).statusCode = 200)
    (hkey : (parsedHeader C response).hasKey (qs "Content-Encoding") = true)
    (hval : (parsedHeader C response).value (qs "Content-Encoding") = qs "gzip")
    (hlines :
      split '\n' (fromAscii (C.uncompress (response.drop (p + 4)) CompressionMethod.Gzip).1)
          = lines ∨
      split '\n' (fromAscii (C.uncompress (response.drop (p + 4)) CompressionMethod.Gzip).1)
          = lines ++ [[]])
    (hN : lines.length = N) (hN1 : 1 ≤ N)
    (hwf : ∀ l, l ∈ lines → C.isEmpty (C.fromString l) = false)
    (hblank : C.isEmpty (C.fromString []) = true) :
    (GeoIpResponse.GeoIpResponse C response)._header.statusCode = 200 ∧
    (GeoIpResponse.GeoIpResponse C response)._header = parsedHeader C response ∧
    (GeoIpResponse.GeoIpResponse C response)._geoips = lines.map C.fromString ∧
    (GeoIpResponse.GeoIpResponse C response)._geoips.length = N ∧
    ∀ i, i < N → (GeoIpResponse.GeoIpResponse C response)._geoips[i]? =
      (lines[i]?).map C.fromString := by
  have hne : (C.uncompress (response.drop (p + 4)) CompressionMethod.Gzip).1.isEmpty
      = false := by
    cases hc : (C.uncompress (response.drop (p + 4)) CompressionMethod.Gzip).1 with
    | cons b bs => rfl
    | nil =>
      exfalso
      rw [hc] at hlines
      have hs : split '\n' (fromAscii []) = [[]] := rfl
      rw [hs] at hlines
      rcases hlines with h | h
      · have := hwf [] (by rw [← h]; exact List.mem_singleton.mpr rfl)
        rw [hblank] at this
        exact Bool.noConfusion this
      · have hl : lines = [] := by
          cases lines with
          | nil => rfl
          | cons x xs =>
            have := congrArg List.length h
            simp at this
        rw [hl] at hN
        simp at hN
        omega
  have hg : (GeoIpResponse.GeoIpResponse C response)._geoips = lines.map C.fromString := by
    rw [ctor_known C response p (qs "gzip") CompressionMethod.Gzip hp hpos hstatus hkey hval
      (Or.inl ⟨Or.inl rfl, rfl⟩), hne]
    simp only [Bool.false_eq_true, if_false]
    rw [parseLines_eq, List.nil_append]
    rcases hlines with h | h
    · rw [h, filter_map_of_all_kept C lines hwf]
    · rw [h, List.map_append, List.filter_append, filter_map_of_all_kept C lines hwf]
      simp [hblank]
  have hh : (GeoIpResponse.GeoIpResponse C response)._header = parsedHeader C response := by
    rw [ctor_known C response p (qs "gzip") CompressionMethod.Gzip hp hpos hstatus hkey hval
      (Or.inl ⟨Or.inl rfl, rfl⟩), hne]
    rfl
  refine ⟨by rw [hh]; exact hstatus, hh, hg, by rw [hg, List.length_map, hN], ?_⟩
  intro i _
  rw [hg, List.getElem?_map]

/-- C5 at a concrete response whose body is a stored gzip stream of two lines. -/
theorem C5_gzip_success_witness :
    (GeoIpResponse.GeoIpResponse sampleCollaborators
      (bytes "HTTP/1.1 200 OK\r\nContent-Encoding: gzip\r\n\r\n" ++ [0x1f, 0x8b] ++
        bytes "1.2.3.4,US\n5.6.7.8,DE\n"))._header.statusCode = 200 ∧
    (GeoIpResponse.GeoIpResponse sampleCollaborators
      (bytes "HTTP/1.1 200 OK\r\nContent-Encoding: gzip\r\n\r\n" ++ [0x1f, 0x8b] ++
        bytes "1.2.3.4,US\n5.6.7.8,DE\n"))._geoips =
      [[qs "1.2.3.4", qs "US"], [qs "5.6.7.8", qs "DE"]] :=
  have h := C5_gzip_success sampleCollaborators
    (bytes "HTTP/1.1 200 OK\r\nContent-Encoding: gzip\r\n\r\n" ++ [0x1f, 0x8b] ++
      bytes "1.2.3.4,US\n5.6.7.8,DE\n") 39 2 [qs "1.2.3.4,US", qs "5.6.7.8,DE"]
    (by decide) (by decide) (by decide) (by decide) (by decide) (Or.inr (by decide))
    (by decide) (by decide) (by decide) (by decide)
  ⟨h.1, h.2.2.1⟩

/-- C6 as stated fails on a body that holds a 0 byte. With no Content-Encoding field and
the body garbage, 0 byte, line feed, 1.2.3.4,US the constructor hands the single line
garbage to `GeoIp::fromString` and ends with no Records, while the body bytes split on
line feeds have a well-formed second line that gives a Record. -/
theorem C6_counterexample :
    indexOf (bytes "HTTP/1.1 200 OK\r\n\r\ngarbage" ++ [0] ++ bytes "\n1.2.3.4,US") CRLFCRLF
      = 15 ∧
    (parsedHeader sampleCollaborators
      (bytes "HTTP/1.1 200 OK\r\n\r\ngarbage" ++ [0] ++ bytes "\n1.2.3.4,US")).statusCode
      = 200 ∧
    (parsedHeader sampleCollaborators
      (bytes "HTTP/1.1 200 OK\r\n\r\ngarbage" ++ [0] ++ bytes "\n1.2.3.4,US")).hasKey
        (qs "Content-Encoding") = false ∧
    (bytes "HTTP/1.1 200 OK\r\n\r\ngarbage" ++ [0] ++ bytes "\n1.2.3.4,US").drop (15 + 4) =
      bytes "garbage" ++ [0] ++ bytes "\n1.2.3.4,US" ∧
    splitBytes 10 (bytes "garbage" ++ [0] ++ bytes "\n1.2.3.4,US") =
      [bytes "garbage" ++ [0], bytes "1.2.3.4,US"] ∧
    recordsOfBytes sampleCollaborators (bytes "garbage" ++ [0] ++ bytes "\n1.2.3.4,US") =
      [[qs "1.2.3.4", qs "US"]] ∧
    (GeoIpResponse.GeoIpResponse sampleCollaborators
      (bytes "HTTP/1.1 200 OK\r\n\r\ngarbage" ++ [0] ++ bytes "\n1.2.3.4,US")).fromStringCalls
      = [qs "garbage"] ∧
    (GeoIpResponse.GeoIpResponse sampleCollaborators
      (bytes "HTTP/1.1 200 OK\r\n\r\ngarbage" ++ [0] ++ bytes "\n1.2.3.4,US"))._geoips
      = [] := by
  refine ⟨?_, ?_, ?_, ?_, ?_, ?_, ?_, ?_⟩ <;> decide

/-- C6 (amended). For a buffer with the separator at `p > 0`, header status 200 and no
Content-Encoding field, the body is read as text, which ends before its first 0 byte.
Every line of that text (split on line feeds) goes through `GeoIp::fromString` in order,
and the Record collection is the list of the results that are not empty, in line order
and with duplicates; its length is the number of lines whose Record is not empty; the
header, and so the status 200, is untouched and the decompressor is not called. In the
words of the claim: the Records are those of the body bytes before the first 0 byte,
split on line feeds, and so those of the whole body when it holds no 0 byte. -/
theorem C6_tolerant_record_parsing {GeoIp : Type} (C : Collaborators GeoIp)
    (response : QByteArray) (p : Nat)
    (hp : indexOf response CRLFCRLF = (p : Int)) (hpos : 0 < p)
    (hstatus : (parsedHeader C response).statusCode = 200)
    (hkey : (parsedHeader C response).hasKey (qs "Content-Encoding") = false) :
    (GeoIpResponse.GeoIpResponse C response)._geoips =
      ((split '\n' (fromAscii (response.drop (p + 4)))).map C.fromString).filter
        (fun g => !C.isEmpty g) ∧
    (GeoIpResponse.GeoIpResponse C response)._geoips =
      ((split '\n' (fromAscii (response.drop (p + 4)))).filter
        (fun l => !C.isEmpty (C.fromString l))).map C.fromString ∧
    (GeoIpResponse.GeoIpResponse C response)._geoips.length =
      (split '\n' (fromAscii (response.drop (p + 4)))).countP
        (fun l => !C.isEmpty (C.fromString l)) ∧
    (GeoIpResponse.GeoIpResponse C response).fromStringCalls =
      split '\n' (fromAscii (response.drop (p + 4))) ∧
    (GeoIpResponse.GeoIpResponse C response)._header.statusCode = 200 ∧
    (GeoIpResponse.GeoIpResponse C response)._header = parsedHeader C response ∧
    (GeoIpResponse.GeoIpResponse C response).uncompressCalls = [] ∧
    (GeoIpResponse.GeoIpResponse C response)._geoips =
      recordsOfBytes C ((response.drop (p + 4)).takeWhile (fun b => b != 0)) ∧
    ((0 : UInt8) ∉ response.drop (p + 4) →
      (GeoIpResponse.GeoIpResponse C response)._geoips =
        recordsOfBytes C (response.drop (p + 4))) := by
  rw [ctor_plain C response p hp hpos hstatus hkey]
  have hfm : ((split '\n' (fromAscii (response.drop (p + 4)))).map C.fromString).filter
        (fun g => !C.isEmpty g) =
      ((split '\n' (fromAscii (response.drop (p + 4)))).filter
        (fun l => !C.isEmpty (C.fromString l))).map C.fromString := by
    rw [List.filter_map]
    rfl
  have hpl : parseLines C (split '\n' (fromAscii (response.drop (p + 4)))) [] =
      ((split '\n' (fromAscii (response.drop (p + 4)))).map C.fromString).filter
        (fun g => !C.isEmpty g) := by
    rw [parseLines_eq, List.nil_append]
  have hcut : parseLines C (split '\n' (fromAscii (response.drop (p + 4)))) [] =
      recordsOfBytes C ((response.drop (p + 4)).takeWhile (fun b => b != 0)) := by
    rw [hpl, split_fromAscii, List.map_map]
    rfl
  refine ⟨hpl, hpl.trans hfm, ?_, rfl, hstatus, rfl, rfl, hcut, ?_⟩
  · show (parseLines C (split '\n' (fromAscii (response.drop (p + 4)))) []).length = _
    rw [hpl, hfm, List.length_map, List.countP_eq_length_filter]
  · intro hz
    show parseLines C (split '\n' (fromAscii (response.drop (p + 4)))) [] = _
    rw [hcut, takeWhile_nonzero_of_not_mem _ hz]

/-- C6 at a concrete response of five lines, two of them malformed: three Records, in
line order. -/
theorem C6_tolerant_record_parsing_witness :
    (GeoIpResponse.GeoIpResponse sampleCollaborators
      (bytes "HTTP/1.1 200 OK\r\n\r\n1.2.3.4,US\r\ngarbage\n\n5.6.7.8,DE\n1.2.3.4,US"))._geoips
      = [[qs "1.2.3.4", qs "US"], [qs "5.6.7.8", qs "DE"], [qs "1.2.3.4", qs "US"]] ∧
    (GeoIpResponse.GeoIpResponse sampleCollaborators
      (bytes "HTTP/1.1 200 OK\r\n\r\n1.2.3.4,US\r\ngarbage\n\n5.6.7.8,DE\n1.2.3.4,US"))._geoips.length
      = 3 :=
  have h := C6_tolerant_record_parsing sampleCollaborators
    (bytes "HTTP/1.1 200 OK\r\n\r\n1.2.3.4,US\r\ngarbage\n\n5.6.7.8,DE\n1.2.3.4,US") 15
    (by decide) (by decide) (by decide) (by decide)
  ⟨h.1.trans (by decide), h.2.2.1.trans (by decide)⟩


/-- C7 (encoding resolution). For a status-200 response with the separator at `p > 0`
and Content-Encoding value `t`, the decompressor is called with the method of the exact,
case-sensitive table: Gzip iff `t` is gzip or x-gzip, Zlib iff `t` is deflate or
x-deflate, None iff `t` is text/plain, each time once and on the body bytes from `p+4`
on; for every other `t` (GZIP, the empty string and a padded token among them) it is not
called and the result is the unsupported-encoding error 601. -/
theorem C7_encoding_resolution {GeoIp : Type} (C : Collaborators GeoIp)
    (response : QByteArray) (p : Nat) (t : QString)
    (hp : indexOf response CRLFCRLF = (p : Int)) (hpos : 0 < p)
    (hstatus : (parsedHeader C response).statusCode = 200)
    (hkey : (parsedHeader C response).hasKey (qs "Content-Encoding") = true)
    (hval : (parsedHeader C response).value (qs "Content-Encoding") = t) :
    ((GeoIpResponse.GeoIpResponse C response).uncompressCalls =
        [(response.drop (p + 4), CompressionMethod.Gzip)] ↔
      (t = qs "gzip" ∨ t = qs "x-gzip")) ∧
    ((GeoIpResponse.GeoIpResponse C response).uncompressCalls =
        [(response.drop (p + 4), CompressionMethod.Zlib)] ↔
      (t = qs "deflate" ∨ t = qs "x-deflate")) ∧
    ((GeoIpResponse.GeoIpResponse C response).uncompressCalls =
        [(response.drop (p + 4), CompressionMethod.None)] ↔ t = qs "text/plain") ∧
    ((GeoIpResponse.GeoIpResponse C response).uncompressCalls = [] ↔
      t ∉ [qs "gzip", qs "x-gzip", qs "deflate", qs "x-deflate", qs "text/plain"]) ∧
    (t ∉ [qs "gzip", qs "x-gzip", qs "deflate", qs "x-deflate", qs "text/plain"] →
      (GeoIpResponse.GeoIpResponse C response)._header.statusCode = 601 ∧
      (GeoIpResponse.GeoIpResponse C response)._header.reasonPhrase =
        qs "Unknown content encoding '" ++ t ++ qs "'") ∧
    (GeoIpResponse.GeoIpResponse C response).uncompressCalls =
      (specEncodingTable t).toList.map (fun m => (response.drop (p + 4), m)) ∧
    specEncodingTable (qs "GZIP") = none ∧ specEncodingTable (qs "") = none ∧
    specEncodingTable (qs " gzip ") = none := by
  have hG : CompressionMethod.Gzip ≠ CompressionMethod.Zlib := by decide
  have hG2 : CompressionMethod.Gzip ≠ CompressionMethod.None := by decide
  have hZ : CompressionMethod.Zlib ≠ CompressionMethod.None := by decide
  have d1 : qs "gzip" ≠ qs "x-gzip" := by decide
  have d2 : qs "gzip" ≠ qs "deflate" := by decide
  have d3 : qs "gzip" ≠ qs "x-deflate" := by decide
  have d4 : qs "gzip" ≠ qs "text/plain" := by decide
  have d5 : qs "x-gzip" ≠ qs "deflate" := by decide
  have d6 : qs "x-gzip" ≠ qs "x-deflate" := by decide
  have d7 : qs "x-gzip" ≠ qs "text/plain" := by decide
  have d8 : qs "deflate" ≠ qs "x-deflate" := by decide
  have d9 : qs "deflate" ≠ qs "text/plain" := by decide
  have d10 : qs "x-deflate" ≠ qs "text/plain" := by decide
  by_cases h1 : t = qs "gzip"
  · have hc := calls_known C response p t CompressionMethod.Gzip hp hpos hstatus hkey hval
      (Or.inl ⟨Or.inl h1, rfl⟩)
    rw [hc]
    subst h1
    refine ⟨?_, ?_, ?_, ?_, ?_, ?_, by decide, by decide, by decide⟩ <;>
      simp [specEncodingTable, hG, hG2, d1, d2, d3, d4]
  by_cases h2 : t = qs "x-gzip"
  · have hc := calls_known C response p t CompressionMethod.Gzip hp hpos hstatus hkey hval
      (Or.inl ⟨Or.inr h2, rfl⟩)
    rw [hc]
    subst h2
    refine ⟨?_, ?_, ?_, ?_, ?_, ?_, by decide, by decide, by decide⟩ <;>
      simp [specEncodingTable, hG, hG2, d1.symm, d5, d6, d7]
  by_cases h3 : t = qs "deflate"
  · have hc := calls_known C response p t CompressionMethod.Zlib hp hpos hstatus hkey hval
      (Or.inr (Or.inl ⟨Or.inl h3, rfl⟩))
    rw [hc]
    subst h3
    refine ⟨?_, ?_, ?_, ?_, ?_, ?_, by decide, by decide, by decide⟩ <;>
      simp [specEncodingTable, hG.symm, hZ, d2.symm, d5.symm, d8, d9]
  by_cases h4 : t = qs "x-deflate"
  · have hc := calls_known C response p t CompressionMethod.Zlib hp hpos hstatus hkey hval
      (Or.inr (Or.inl ⟨Or.inr h4, rfl⟩))
    rw [hc]
    subst h4
    refine ⟨?_, ?_, ?_, ?_, ?_, ?_, by decide, by decide, by decide⟩ <;>
      simp [specEncodingTable, hG.symm, hZ, d3.symm, d6.symm, d8.symm, d10]
  by_cases h5 : t = qs "text/plain"
  · have hc := calls_known C response p t CompressionMethod.None hp hpos hstatus hkey hval
      (Or.inr (Or.inr ⟨h5, rfl⟩))
    rw [hc]
    subst h5
    refine ⟨?_, ?_, ?_, ?_, ?_, ?_, by decide, by decide, by decide⟩ <;>
      simp [specEncodingTable, hG2.symm, hZ.symm, d4.symm, d7.symm, d9.symm, d10.symm]
  · rw [ctor_unknown C response p t hp hpos hstatus hkey hval h1 h2 h3 h4 h5]
    have hmsg := arg_unknown_encoding t
    refine ⟨?_, ?_, ?_, ?_, ?_, ?_, by decide, by decide, by decide⟩
    · simp [h1, h2]
    · simp [h3, h4]
    · simp [h5]
    · simp [h1, h2, h3, h4, h5]
    · intro _
      exact ⟨rfl, hmsg⟩
    · simp [specEncodingTable, h1, h2, h3, h4, h5]

/-- C7 at a concrete response declaring the encoding GZIP in capitals: no call of the
decompressor, error 601. -/
theorem C7_encoding_resolution_witness :
    (GeoIpResponse.GeoIpResponse sampleCollaborators
      (bytes "HTTP/1.1 200 OK\r\nContent-Encoding: GZIP\r\n\r\n1.2.3.4,US")).uncompressCalls
      = [] ∧
    (GeoIpResponse.GeoIpResponse sampleCollaborators
      (bytes "HTTP/1.1 200 OK\r\nContent-Encoding: GZIP\r\n\r\n1.2.3.4,US"))._header.statusCode
      = 601 :=
  have h := C7_encoding_resolution sampleCollaborators
    (bytes "HTTP/1.1 200 OK\r\nContent-Encoding: GZIP\r\n\r\n1.2.3.4,US") 39 (qs "GZIP")
    (by decide) (by decide) (by decide) (by decide) (by decide)
  ⟨h.2.2.2.1.mpr (by decide), (h.2.2.2.2.1 (by decide)).1⟩


/-- C8 as stated fails at the empty body. With a decompressor whose Identity method
returns the bytes unchanged, the response with Content-Encoding text/plain and nothing
after the separator ends with status 601, while the same response without the field
keeps status 200. -/
theorem C8_counterexample :
    (∀ b, (sampleCollaborators.uncompress b CompressionMethod.None).1 = b) ∧
    indexOf (bytes "HTTP/1.1 200 OK\r\nContent-Encoding: text/plain\r\n\r\n") CRLFCRLF = 45 ∧
    (parsedHeader sampleCollaborators
      (bytes "HTTP/1.1 200 OK\r\nContent-Encoding: text/plain\r\n\r\n")).statusCode = 200 ∧
    (parsedHeader sampleCollaborators
      (bytes "HTTP/1.1 200 OK\r\nContent-Encoding: text/plain\r\n\r\n")).value
        (qs "Content-Encoding") = qs "text/plain" ∧
    (bytes "HTTP/1.1 200 OK\r\nContent-Encoding: text/plain\r\n\r\n").drop (45 + 4) = [] ∧
    (GeoIpResponse.GeoIpResponse sampleCollaborators
      (bytes "HTTP/1.1 200 OK\r\nContent-Encoding: text/plain\r\n\r\n"))._header.statusCode
      = 601 ∧
    (GeoIpResponse.GeoIpResponse sampleCollaborators
      (bytes "HTTP/1.1 200 OK\r\n\r\n"))._header.statusCode = 200 := by
  refine ⟨fun b => rfl, ?_, ?_, ?_, ?_, ?_, ?_⟩ <;> decide

/-- C8 (amended). For a buffer with the separator at `p > 0`, header status 200 and
Content-Encoding text/plain, with a decompressor whose Identity method returns the body
unchanged: when the body is not empty the status code stays 200, the header is untouched
and the Record collection is the one parsed from the unchanged body, so status and
Records are those of a response with the same body and no Content-Encoding field; when
the body is empty the constructor reports the decoding error 601 with no Records. -/
theorem C8_identity {GeoIp : Type} (C : Collaborators GeoIp)
    (response response2 : QByteArray) (p p2 : Nat)
    (hp : indexOf response CRLFCRLF = (p : Int)) (hpos : 0 < p)
    (hstatus : (parsedHeader C response).statusCode = 200)
    (hkey : (parsedHeader C response).hasKey (qs "Content-Encoding") = true)
    (hval : (parsedHeader C response).value (qs "Content-Encoding") = qs "text/plain")
    (hp2 : indexOf response2 CRLFCRLF = (p2 : Int)) (hpos2 : 0 < p2)
    (hstatus2 : (parsedHeader C response2).statusCode = 200)
    (hkey2 : (parsedHeader C response2).hasKey (qs "Content-Encoding") = false)
    (hbody : response2.drop (p2 + 4) = response.drop (p + 4))
    (hid : (C.uncompress (response.drop (p + 4)) CompressionMethod.None).1 =
      response.drop (p + 4)) :
    (response.drop (p + 4) ≠ [] →
      (GeoIpResponse.GeoIpResponse C response)._header.statusCode = 200 ∧
      (GeoIpResponse.GeoIpResponse C response)._header = parsedHeader C response ∧
      (GeoIpResponse.GeoIpResponse C response)._geoips =
        ((split '\n' (fromAscii (response.drop (p + 4)))).map C.fromString).filter
          (fun g => !C.isEmpty g) ∧
      (GeoIpResponse.GeoIpResponse C response)._geoips =
        (GeoIpResponse.GeoIpResponse C response2)._geoips ∧
      (GeoIpResponse.GeoIpResponse C response)._header.statusCode =
        (GeoIpResponse.GeoIpResponse C response2)._header.statusCode) ∧
    (response.drop (p + 4) = [] →
      (GeoIpResponse.GeoIpResponse C response)._header.statusCode = 601 ∧
      (GeoIpResponse.GeoIpResponse C response)._geoips = [] ∧
      (GeoIpResponse.GeoIpResponse C response2)._header.statusCode = 200) := by
  have h2 := ctor_plain C response2 p2 hp2 hpos2 hstatus2 hkey2
  rw [hbody] at h2
  have hst2 : (GeoIpResponse.GeoIpResponse C response2)._header.statusCode = 200 := by
    rw [h2]
    exact hstatus2
  rcases ctor_known_cases C response p (qs "text/plain") CompressionMethod.None hp hpos
    hstatus hkey hval (Or.inr (Or.inr ⟨rfl, rfl⟩)) with ⟨he, hk⟩ | ⟨he, hk⟩
  · rw [hid] at he
    refine ⟨fun hne => absurd he hne, fun _ => ?_⟩
    rw [hk]
    exact ⟨rfl, rfl, hst2⟩
  · rw [hid] at he hk
    refine ⟨fun _ => ?_, fun hnil => absurd hnil he⟩
    rw [hk, h2]
    refine ⟨hstatus, rfl, ?_, rfl, hstatus.trans hstatus2.symm⟩
    show parseLines C _ [] = _
    rw [parseLines_eq, List.nil_append]

/-- C8 (amended) at a concrete pair of responses with the same one-line body, one
declaring text/plain and one without the field. -/
theorem C8_identity_witness :
    (GeoIpResponse.GeoIpResponse sampleCollaborators
      (bytes "HTTP/1.1 200 OK\r\nContent-Encoding: text/plain\r\n\r\n1.2.3.4,US"))._header.statusCode
      = 200 ∧
    (GeoIpResponse.GeoIpResponse sampleCollaborators
      (bytes "HTTP/1.1 200 OK\r\nContent-Encoding: text/plain\r\n\r\n1.2.3.4,US"))._geoips =
    (GeoIpResponse.GeoIpResponse sampleCollaborators
      (bytes "HTTP/1.1 200 OK\r\n\r\n1.2.3.4,US"))._geoips :=
  have h := (C8_identity sampleCollaborators
    (bytes "HTTP/1.1 200 OK\r\nContent-Encoding: text/plain\r\n\r\n1.2.3.4,US")
    (bytes "HTTP/1.1 200 OK\r\n\r\n1.2.3.4,US") 45 15
    (by decide) (by decide) (by decide) (by decide) (by decide)
    (by decide) (by decide) (by decide) (by decide) (by decide) (by decide)).1 (by decide)
  ⟨h.1, h.2.2.2.1⟩

/-- C10 (result invariant). For every byte buffer: when the final status code is not 200
the Record collection is empty; and when the Record collection is not empty, the
separator occurs in the buffer (at a position `p > 0`), the final status code is 200 with
the header as parsed, and the Records are the non-empty results of `GeoIp::fromString`
on the lines of the decoded body: the body itself when there is no Content-Encoding
field, otherwise the non-empty output of the decompressor, called once on the body with
the method of the token. -/
theorem C10_result_invariant {GeoIp : Type} (C : Collaborators GeoIp)
    (response : QByteArray) :
    ((GeoIpResponse.GeoIpResponse C response)._header.statusCode ≠ 200 →
      (GeoIpResponse.GeoIpResponse C response)._geoips = []) ∧
    ((GeoIpResponse.GeoIpResponse C response)._geoips ≠ [] →
      CRLFCRLF <:+: response ∧
      (GeoIpResponse.GeoIpResponse C response)._header.statusCode = 200 ∧
      (GeoIpResponse.GeoIpResponse C response)._header = parsedHeader C response ∧
      ∃ p : Nat, 0 < p ∧ indexOf response CRLFCRLF = (p : Int) ∧
        (((parsedHeader C response).hasKey (qs "Content-Encoding") = false ∧
          (GeoIpResponse.GeoIpResponse C response).uncompressCalls = [] ∧
          (GeoIpResponse.GeoIpResponse C response)._geoips =
            ((split '\n' (fromAscii (response.drop (p + 4)))).map C.fromString).filter
              (fun g => !C.isEmpty g)) ∨
         ((parsedHeader C response).hasKey (qs "Content-Encoding") = true ∧
          ∃ m, specEncodingTable ((parsedHeader C response).value (qs "Content-Encoding"))
              = some m ∧
            (GeoIpResponse.GeoIpResponse C response).uncompressCalls =
              [(response.drop (p + 4), m)] ∧
            (C.uncompress (response.drop (p + 4)) m).1 ≠ [] ∧
            (GeoIpResponse.GeoIpResponse C response)._geoips =
              ((split '\n' (fromAscii (C.uncompress (response.drop (p + 4)) m).1)).map
                C.fromString).filter (fun g => !C.isEmpty g)))) := by
  have hocc : ∀ p : Nat, indexOf response CRLFCRLF = (p : Int) → CRLFCRLF <:+: response := by
    intro p hp
    by_contra hn
    rw [(indexOf_eq_neg_one_iff CRLFCRLF response).mpr hn] at hp
    omega
  rcases ctor_cases C response with ⟨_, hr⟩ | ⟨p, hp, hpos, hst, hcs⟩
  · rw [hr]
    exact ⟨fun _ => rfl, fun hne => absurd rfl hne⟩
  · rcases hcs with ⟨hk, hr⟩ | ⟨_, _, hr⟩ | ⟨_, m, _, _, hr⟩ | ⟨hk, m, htab, hne, hr⟩
    · rw [hr]
      refine ⟨fun hns => absurd hst hns, fun _ => ⟨hocc p hp, hst, rfl, p, hpos, hp, ?_⟩⟩
      refine Or.inl ⟨hk, rfl, ?_⟩
      show parseLines C _ [] = _
      rw [parseLines_eq, List.nil_append]
    · rw [hr]
      exact ⟨fun _ => rfl, fun hne => absurd rfl hne⟩
    · rw [hr]
      exact ⟨fun _ => rfl, fun hne => absurd rfl hne⟩
    · rw [hr]
      refine ⟨fun hns => absurd hst hns, fun _ => ⟨hocc p hp, hst, rfl, p, hpos, hp, ?_⟩⟩
      refine Or.inr ⟨hk, m, htab, rfl, hne, ?_⟩
      show parseLines C _ [] = _
      rw [parseLines_eq, List.nil_append]

/-- C11 as stated fails in both directions. A response whose own status line carries the
code 601 ends with status 601 although its header status is not 200; and a buffer without
the separator whose header text has status 200 and the unsupported token bogus keeps
status 200. -/
theorem C11_counterexample :
    ((GeoIpResponse.GeoIpResponse sampleCollaborators
        (bytes "HTTP/1.1 601 Busy\r\n\r\n1.2.3.4,US"))._header.statusCode = 601 ∧
      (parsedHeader sampleCollaborators
        (bytes "HTTP/1.1 601 Busy\r\n\r\n1.2.3.4,US")).statusCode ≠ 200) ∧
    ((parsedHeader sampleCollaborators
        (bytes "HTTP/1.1 200 OK\r\nContent-Encoding: bogus")).statusCode = 200 ∧
      (parsedHeader sampleCollaborators
        (bytes "HTTP/1.1 200 OK\r\nContent-Encoding: bogus")).hasKey
          (qs "Content-Encoding") = true ∧
      specEncodingTable ((parsedHeader sampleCollaborators
        (bytes "HTTP/1.1 200 OK\r\nContent-Encoding: bogus")).value
          (qs "Content-Encoding")) = none ∧
      (GeoIpResponse.GeoIpResponse sampleCollaborators
        (bytes "HTTP/1.1 200 OK\r\nContent-Encoding: bogus"))._header.statusCode = 200) := by
  refine ⟨⟨?_, ?_⟩, ?_, ?_, ?_, ?_⟩ <;> decide

/-- C11 (amended). For every byte buffer, the final status code is 601 exactly when either
the header parser itself read the status code 601, or the separator is at a position
`p > 0`, the header status is 200, there is a Content-Encoding field, and its token is
unsupported or the decompressor returns nothing for the body. The constructor writes 601
on those two error paths only. -/
theorem C11_status_601 {GeoIp : Type} (C : Collaborators GeoIp) (response : QByteArray) :
    (GeoIpResponse.GeoIpResponse C response)._header.statusCode = 601 ↔
      ((parsedHeader C response).statusCode = 601 ∨
       ∃ p : Nat, 0 < p ∧ indexOf response CRLFCRLF = (p : Int) ∧
        (parsedHeader C response).statusCode = 200 ∧
        (parsedHeader C response).hasKey (qs "Content-Encoding") = true ∧
        (specEncodingTable ((parsedHeader C response).value (qs "Content-Encoding")) = none ∨
         ∃ m, specEncodingTable ((parsedHeader C response).value (qs "Content-Encoding"))
              = some m ∧
            (C.uncompress (response.drop (p + 4)) m).1 = [])) := by
  have h26 : ¬ ((200 : Int) = 601) := by decide
  rcases ctor_cases C response with ⟨hg, hr⟩ | ⟨p, hp, hpos, hst, hcs⟩
  · rw [hr]
    constructor
    · intro h
      exact Or.inl h
    · rintro (h | ⟨q, hq, hiq, hs, _⟩)
      · exact h
      · exact absurd ⟨by rw [hiq]; exact_mod_cast hq, hs⟩ hg
  · have hnot : ¬ (parsedHeader C response).statusCode = 601 := by
      rw [hst]
      exact h26
    have same : ∀ q : Nat, indexOf response CRLFCRLF = (q : Int) → q = p := by
      intro q hq
      rw [hp] at hq
      exact_mod_cast hq.symm
    rcases hcs with ⟨hk, hr⟩ | ⟨hk, htab, hr⟩ | ⟨hk, m, htab, he, hr⟩ | ⟨hk, m, htab, he, hr⟩
    · rw [hr]
      constructor
      · intro h
        exact absurd h hnot
      · rintro (h | ⟨q, _, _, _, hk2, _⟩)
        · exact absurd h hnot
        · rw [hk] at hk2
          exact Bool.noConfusion hk2
    · rw [hr]
      exact ⟨fun _ => Or.inr ⟨p, hpos, hp, hst, hk, Or.inl htab⟩, fun _ => rfl⟩
    · rw [hr]
      exact ⟨fun _ => Or.inr ⟨p, hpos, hp, hst, hk, Or.inr ⟨m, htab, he⟩⟩, fun _ => rfl⟩
    · rw [hr]
      constructor
      · intro h
        exact absurd h hnot
      · rintro (h | ⟨q, _, hiq, _, _, hn | ⟨m2, htab2, he2⟩⟩)
        · exact absurd h hnot
        · rw [htab] at hn
          exact Option.noConfusion hn
        · have hq := same q hiq
          subst hq
          rw [htab] at htab2
          have hm : m = m2 := Option.some.inj htab2
          subst hm
          exact absurd he2 he

theorem parseLines_congr {GeoIp : Type} (C C2 : Collaborators GeoIp)
    (hfs : ∀ l, C.fromString l = C2.fromString l) (hemp : ∀ g, C.isEmpty g = C2.isEmpty g)
    (lines : List QString) (geoips : List GeoIp) :
    parseLines C lines geoips = parseLines C2 lines geoips := by
  induction lines generalizing geoips with
  | nil => rfl
  | cons line lines ih =>
    unfold parseLines
    simp only [hfs, hemp, ih]

/-- C12 (determinism). Two constructions from the same bytes give the same object, hence
the same status code, status message, header fields and Record sequence. The result
depends on the buffer only: the two runs need not even share their collaborators, as
long as these return the same header for the header block, the same output and diagnostic
for the body, and the same Records for the lines. -/
theorem C12_determinism {GeoIp : Type} (C C2 : Collaborators GeoIp)
    (response response2 : QByteArray) (hbuf : response = response2)
    (hparse : C.parseHeader (fromAscii (mid response 0 (indexOf response CRLFCRLF))) =
      C2.parseHeader (fromAscii (mid response 0 (indexOf response CRLFCRLF))))
    (hunc : ∀ m, C.uncompress (mid response (indexOf response CRLFCRLF + 4) (-1)) m =
      C2.uncompress (mid response (indexOf response CRLFCRLF + 4) (-1)) m)
    (hfs : ∀ l, C.fromString l = C2.fromString l)
    (hemp : ∀ g, C.isEmpty g = C2.isEmpty g) :
    GeoIpResponse.GeoIpResponse C response = GeoIpResponse.GeoIpResponse C2 response2 ∧
    (GeoIpResponse.GeoIpResponse C response)._header.statusCode =
      (GeoIpResponse.GeoIpResponse C2 response2)._header.statusCode ∧
    (GeoIpResponse.GeoIpResponse C response)._header.reasonPhrase =
      (GeoIpResponse.GeoIpResponse C2 response2)._header.reasonPhrase ∧
    (GeoIpResponse.GeoIpResponse C response)._header.values =
      (GeoIpResponse.GeoIpResponse C2 response2)._header.values ∧
    (GeoIpResponse.GeoIpResponse C response)._geoips =
      (GeoIpResponse.GeoIpResponse C2 response2)._geoips := by
  subst hbuf
  have heq : GeoIpResponse.GeoIpResponse C response =
      GeoIpResponse.GeoIpResponse C2 response := by
    unfold GeoIpResponse.GeoIpResponse
    simp only [hparse, hunc, parseLines_congr C C2 hfs hemp]
  rw [heq]
  exact ⟨rfl, rfl, rfl, rfl, rfl⟩

/-- C12 at a concrete response, built twice. -/
theorem C12_determinism_witness :
    GeoIpResponse.GeoIpResponse sampleCollaborators
        (bytes "HTTP/1.1 200 OK\r\n\r\n1.2.3.4,US\n5.6.7.8,DE") =
      GeoIpResponse.GeoIpResponse sampleCollaborators
        (bytes "HTTP/1.1 200 OK\r\n\r\n1.2.3.4,US\n5.6.7.8,DE") ∧
    (GeoIpResponse.GeoIpResponse sampleCollaborators
        (bytes "HTTP/1.1 200 OK\r\n\r\n1.2.3.4,US\n5.6.7.8,DE"))._geoips =
      [[qs "1.2.3.4", qs "US"], [qs "5.6.7.8", qs "DE"]] :=
  ⟨(C12_determinism sampleCollaborators sampleCollaborators
      (bytes "HTTP/1.1 200 OK\r\n\r\n1.2.3.4,US\n5.6.7.8,DE")
      (bytes "HTTP/1.1 200 OK\r\n\r\n1.2.3.4,US\n5.6.7.8,DE") rfl rfl (fun _ => rfl)
      (fun _ => rfl) (fun _ => rfl)).1, by decide⟩

/-! ## Facts about `toUInt` and `number` -/

theorem digitChar_facts (k : Nat) (hk : k < 10) :
    (Nat.digitChar k).isDigit = true ∧ digitValue (Nat.digitChar k) = k := by
  interval_cases k <;> exact ⟨by decide, by decide⟩

theorem numberAux_all_digits (fuel n : Nat) :
    (numberAux fuel n).all Char.isDigit = true := by
  induction fuel generalizing n with
  | zero => rfl
  | succ fuel ih =>
    unfold numberAux
    by_cases h : n < 10
    · rw [if_pos h]
      simp [(digitChar_facts n h).1]
    · rw [if_neg h]
      have hm : n % 10 < 10 := Nat.mod_lt _ (by decide)
      simp [ih (n / 10), (digitChar_facts (n % 10) hm).1]

theorem numberAux_ne_nil (fuel n : Nat) : numberAux (fuel + 1) n ≠ [] := by
  unfold numberAux
  by_cases h : n < 10
  · rw [if_pos h]
    exact List.cons_ne_nil _ _
  · rw [if_neg h]
    exact List.append_ne_nil_of_right_ne_nil _ (List.cons_ne_nil _ _)

theorem digitsValue_append_single (s : QString) (c : Char) :
    digitsValue (s ++ [c]) = 10 * digitsValue s + digitValue c := by
  unfold digitsValue
  rw [List.foldl_append]
  rfl

theorem digitsValue_numberAux (fuel n : Nat) (h : n < fuel) :
    digitsValue (numberAux fuel n) = n := by
  induction fuel generalizing n with
  | zero => omega
  | succ fuel ih =>
    unfold numberAux
    by_cases h10 : n < 10
    · rw [if_pos h10]
      show 10 * 0 + digitValue (Nat.digitChar n) = n
      rw [(digitChar_facts n h10).2]
      omega
    · rw [if_neg h10]
      have hm : n % 10 < 10 := Nat.mod_lt _ (by decide)
      rw [digitsValue_append_single, ih (n / 10) (by omega), (digitChar_facts (n % 10) hm).2]
      omega

theorem not_whitespace_of_digit (c : Char) (h : c.isDigit = true) :
    c.isWhitespace = false := by
  cases hw : c.isWhitespace with
  | false => rfl
  | true =>
    exfalso
    simp only [Char.isWhitespace, Bool.or_eq_true, decide_eq_true_eq] at hw
    rcases hw with ((hw | hw) | hw) | hw <;> subst hw <;> exact absurd h (by decide)

theorem dropWhile_whitespace_of_digits (s : QString) (h : s.all Char.isDigit = true) :
    s.dropWhile Char.isWhitespace = s := by
  cases s with
  | nil => rfl
  | cons c cs =>
    have hc : c.isDigit = true := by
      simp only [List.all_cons, Bool.and_eq_true] at h
      exact h.1
    rw [List.dropWhile_cons, not_whitespace_of_digit c hc]
    rfl

theorem trimmed_of_digits (s : QString) (h : s.all Char.isDigit = true) : trimmed s = s := by
  unfold trimmed
  rw [dropWhile_whitespace_of_digits s h,
    dropWhile_whitespace_of_digits s.reverse (by rw [List.all_reverse]; exact h),
    List.reverse_reverse]

/-- Reading back a number that `number` wrote gives the number. -/
theorem toUInt_number (n : Nat) (h : n < UINT_SIZE) : toUInt (number n) = n := by
  have hd : (number n).all Char.isDigit = true := numberAux_all_digits (n + 1) n
  have hv : digitsValue (number n) = n := digitsValue_numberAux (n + 1) n (by omega)
  have hne : number n ≠ [] := numberAux_ne_nil n n
  unfold toUInt
  rw [trimmed_of_digits (number n) hd, hv]
  rw [if_pos ⟨hne, hd, h⟩]

/-- What `toUInt` returns fits an unsigned int. -/
theorem toUInt_lt (s : QString) : toUInt s < UINT_SIZE := by
  unfold toUInt
  split
  · rename_i h
    exact h.2.2
  · decide

/-! ## The claims about the server page -/

/-- The two rate fields after `customRateChanged`, case by case. -/
theorem customRateChanged_fields (page : ServerPage) :
    page.customRateChanged.lineAvgRateLimit =
      (if toUInt page.lineAvgRateLimit > MAX_BANDWIDTH_RATE then number MAX_BANDWIDTH_RATE
        else if toUInt page.lineAvgRateLimit < MIN_BANDWIDTH_RATE then
          number MIN_BANDWIDTH_RATE
        else page.lineAvgRateLimit) ∧
    page.customRateChanged.lineMaxRateLimit =
      (if toUInt page.lineMaxRateLimit > MAX_BANDWIDTH_RATE then number MAX_BANDWIDTH_RATE
        else if toUInt page.lineAvgRateLimit > toUInt page.lineMaxRateLimit then
          number (toUInt page.lineAvgRateLimit)
        else page.lineMaxRateLimit) := by
  unfold ServerPage.customRateChanged
  by_cases h1 : toUInt page.lineAvgRateLimit < MIN_BANDWIDTH_RATE <;>
  by_cases h2 : toUInt page.lineAvgRateLimit > MAX_BANDWIDTH_RATE <;>
  by_cases h3 : toUInt page.lineAvgRateLimit > toUInt page.lineMaxRateLimit <;>
  by_cases h4 : toUInt page.lineMaxRateLimit > MAX_BANDWIDTH_RATE <;>
  simp [h1, h2, h3, h4]

/-- The average rate shown after `customRateChanged` is always within the allowed
range. -/
theorem customRateChanged_avg_range (page : ServerPage) :
    MIN_BANDWIDTH_RATE ≤ toUInt page.customRateChanged.lineAvgRateLimit ∧
    toUInt page.customRateChanged.lineAvgRateLimit ≤ MAX_BANDWIDTH_RATE := by
  rw [(customRateChanged_fields page).1]
  by_cases h2 : toUInt page.lineAvgRateLimit > MAX_BANDWIDTH_RATE
  · rw [if_pos h2]
    exact ⟨by decide, by decide⟩
  · rw [if_neg h2]
    by_cases h1 : toUInt page.lineAvgRateLimit < MIN_BANDWIDTH_RATE
    · rw [if_pos h1]
      exact ⟨by decide, by decide⟩
    · rw [if_neg h1]
      exact ⟨Nat.le_of_not_lt h1, Nat.le_of_not_lt h2⟩

/-- When the average rate read from the field is already within the allowed range, the
maximum rate shown after `customRateChanged` is at least the average rate shown and at
most the allowed maximum. -/
theorem customRateChanged_burst_range (page : ServerPage)
    (hmin : MIN_BANDWIDTH_RATE ≤ toUInt page.lineAvgRateLimit)
    (hmax : toUInt page.lineAvgRateLimit ≤ MAX_BANDWIDTH_RATE) :
    toUInt page.customRateChanged.lineAvgRateLimit ≤
      toUInt page.customRateChanged.lineMaxRateLimit ∧
    toUInt page.customRateChanged.lineMaxRateLimit ≤ MAX_BANDWIDTH_RATE := by
  rw [(customRateChanged_fields page).1, (customRateChanged_fields page).2]
  rw [if_neg (Nat.not_lt_of_le hmax), if_neg (Nat.not_lt_of_le hmin)]
  have hM : toUInt (number MAX_BANDWIDTH_RATE) = MAX_BANDWIDTH_RATE := by decide
  by_cases h4 : toUInt page.lineMaxRateLimit > MAX_BANDWIDTH_RATE
  · rw [if_pos h4, hM]
    exact ⟨hmax, le_refl _⟩
  · rw [if_neg h4]
    by_cases h3 : toUInt page.lineAvgRateLimit > toUInt page.lineMaxRateLimit
    · rw [if_pos h3, toUInt_number _ (toUInt_lt _)]
      exact ⟨le_refl _, hmax⟩
    · rw [if_neg h3]
      exact ⟨Nat.le_of_not_lt h3, Nat.le_of_not_lt h4⟩

/-- An average rate above the allowed maximum is copied into the maximum rate field
without being clamped. -/
theorem customRateChanged_burst_above_max :
    (samplePage (qs "3000000") (qs "10")).customRateChanged =
      samplePage (qs "2097151") (qs "3000000") ∧
    MAX_BANDWIDTH_RATE <
      toUInt (samplePage (qs "3000000") (qs "10")).customRateChanged.lineMaxRateLimit := by
  refine ⟨?_, ?_⟩ <;> decide

/-- C13 at the failing input: with the texts 5 and 10 in the average and the maximum rate
field, `customRateChanged` leaves 20 and 10, so the maximum rate shown (10) is below the
average rate shown (20): the comparison of line 458 uses the average rate as it was read,
not as it was corrected. -/
theorem C13_burst_below_average :
    toUInt (samplePage (qs "5") (qs "10")).lineAvgRateLimit = 5 ∧
    toUInt (samplePage (qs "5") (qs "10")).lineMaxRateLimit = 10 ∧
    (samplePage (qs "5") (qs "10")).customRateChanged = samplePage (qs "20") (qs "10") ∧
    toUInt (samplePage (qs "5") (qs "10")).customRateChanged.lineAvgRateLimit = 20 ∧
    toUInt (samplePage (qs "5") (qs "10")).customRateChanged.lineMaxRateLimit = 10 ∧
    ¬ (toUInt (samplePage (qs "5") (qs "10")).customRateChanged.lineAvgRateLimit ≤
      toUInt (samplePage (qs "5") (qs "10")).customRateChanged.lineMaxRateLimit) := by
  refine ⟨?_, ?_, ?_, ?_, ?_, ?_⟩ <;> decide

end Vidalia
